import Mathlib

/-!
Shallow embedding of the ApoIA literacy-tutoring backend (services of
src/AiHelper) and verification of its specification claims.

Conventions of the embedding:
* Python strings are Lean `String`s; most string algorithms are written over
  `List Char` (the `.data` of a string) so that they can be reasoned about by
  induction.
* Python `float` percentages are modelled as `ℚ`.  All thresholds compared in
  the code (50, 70, 80, 90, 100) are exactly representable, and the quotients
  involved are ratios of small integers, so the rational model agrees with the
  float code on every comparison the claims mention.
* Python `datetime` timestamps are modelled as integer seconds.
* Calls into external services (the OpenAI completion client, the language
  model, the regex-based name/age detector of text_detection.py) enter the
  turn model as explicit parameters, universally quantified in the theorems.
-/

/-- The double-quote character (written via its code point). -/
def quoteC : Char := Char.ofNat 34

/-- The apostrophe character. -/
def aposC : Char := Char.ofNat 39

/-- The backslash character. -/
def backslashC : Char := Char.ofNat 92

/-- The backtick character. -/
def backtickC : Char := Char.ofNat 96

/-- The opening curly brace character. -/
def lbraceC : Char := Char.ofNat 123

/-- The closing curly brace character. -/
def rbraceC : Char := Char.ofNat 125

/-- Python `string.punctuation`: the 32 ASCII punctuation characters. -/
def pyPunct : List Char :=
  ['!', quoteC, '#', '$', '%', '&', aposC, '(', ')', '*', '+', ',', '-', '.', '/',
   ':', ';', '<', '=', '>', '?', '@', '[', backslashC, ']', '^', '_', backtickC,
   lbraceC, '|', rbraceC, '~']

/-- Whitespace characters recognised by Python `str.split()` / `str.strip()`
(space, tab, newline, carriage return, vertical tab, form feed). -/
def wsChar (c : Char) : Bool :=
  c == ' ' || c == '\t' || c == '\n' || c == '\r' || c == Char.ofNat 11 || c == Char.ofNat 12

/-- Python `str.lower()` restricted to the character range the program uses:
ASCII letters plus the precomposed Latin-1 accented capitals of Portuguese. -/
def pyLower (c : Char) : Char :=
  if 'A' ≤ c ∧ c ≤ 'Z' then Char.ofNat (c.toNat + 32)
  else if c = 'Á' ∨ c = 'À' ∨ c = 'Â' ∨ c = 'Ã' ∨ c = 'Ä' ∨
          c = 'É' ∨ c = 'È' ∨ c = 'Ê' ∨ c = 'Ë' ∨
          c = 'Í' ∨ c = 'Ì' ∨ c = 'Î' ∨ c = 'Ï' ∨
          c = 'Ó' ∨ c = 'Ò' ∨ c = 'Ô' ∨ c = 'Õ' ∨ c = 'Ö' ∨
          c = 'Ú' ∨ c = 'Ù' ∨ c = 'Û' ∨ c = 'Ü' ∨ c = 'Ç' ∨ c = 'Ñ' then
    Char.ofNat (c.toNat + 32)
  else c

/-- NFD decomposition followed by dropping combining marks
(`unicodedata.normalize('NFD', w)` plus the `Mn`-filter), restricted to the
precomposed Latin-1 characters of Portuguese. -/
def stripAccent (c : Char) : Char :=
  if c = 'á' ∨ c = 'à' ∨ c = 'â' ∨ c = 'ã' ∨ c = 'ä' then 'a'
  else if c = 'é' ∨ c = 'è' ∨ c = 'ê' ∨ c = 'ë' then 'e'
  else if c = 'í' ∨ c = 'ì' ∨ c = 'î' ∨ c = 'ï' then 'i'
  else if c = 'ó' ∨ c = 'ò' ∨ c = 'ô' ∨ c = 'õ' ∨ c = 'ö' then 'o'
  else if c = 'ú' ∨ c = 'ù' ∨ c = 'û' ∨ c = 'ü' then 'u'
  else if c = 'ç' then 'c'
  else if c = 'ñ' then 'n'
  else if c = 'Á' ∨ c = 'À' ∨ c = 'Â' ∨ c = 'Ã' ∨ c = 'Ä' then 'A'
  else if c = 'É' ∨ c = 'È' ∨ c = 'Ê' ∨ c = 'Ë' then 'E'
  else if c = 'Í' ∨ c = 'Ì' ∨ c = 'Î' ∨ c = 'Ï' then 'I'
  else if c = 'Ó' ∨ c = 'Ò' ∨ c = 'Ô' ∨ c = 'Õ' ∨ c = 'Ö' then 'O'
  else if c = 'Ú' ∨ c = 'Ù' ∨ c = 'Û' ∨ c = 'Ü' then 'U'
  else if c = 'Ç' then 'C'
  else if c = 'Ñ' then 'N'
  else c

/-- Python `str.strip()` on a character list. -/
def stripCL (l : List Char) : List Char :=
  ((l.dropWhile wsChar).reverse.dropWhile wsChar).reverse

/-- Python `str.strip()`. -/
def stripS (s : String) : String := String.mk (stripCL s.data)

/-- Helper for `wordsCL`: scans the characters keeping the (reversed) current
word in `acc`; a whitespace character flushes the current word. -/
def wordsAux (acc : List Char) : List Char → List (List Char)
  | [] => if acc.isEmpty then [] else [acc.reverse]
  | c :: cs =>
    if wsChar c then
      if acc.isEmpty then wordsAux [] cs else acc.reverse :: wordsAux [] cs
    else wordsAux (c :: acc) cs

/-- Python `str.split()` (split on whitespace runs, dropping empty pieces),
on a character list: the list of maximal whitespace-free nonempty chunks. -/
def wordsCL (l : List Char) : List (List Char) := wordsAux [] l

/-- Python `str.split()`. -/
def pySplitWs (s : String) : List String := (wordsCL s.data).map String.mk

/-- Number of whitespace-separated tokens of a string. -/
def countWords (s : String) : Nat := (wordsCL s.data).length

/-- Python `" ".join(words)` on character lists. -/
def joinWordsCL : List (List Char) → List Char
  | [] => []
  | [w] => w
  | w :: ws => w ++ ' ' :: joinWordsCL ws

/-- Python `" ".join(words)`. -/
def pyJoinSp (l : List String) : String := String.mk (joinWordsCL (l.map String.data))

/-! ## services/literacy_evaluator.py -/

/-- `_normalize_word` of literacy_evaluator.py: remove ASCII punctuation,
lowercase, strip accents (NFD + drop `Mn`), strip whitespace. -/
def _normalize_word (w : String) : String :=
  String.mk (stripCL (((w.data.filter (fun c => !(pyPunct.contains c))).map pyLower).map stripAccent))

/-- The normalized nonempty user tokens of `analyze_reading_level`
(the list comprehension of line 67 of literacy_evaluator.py). -/
def userTokens (user_response : String) : List String :=
  ((pySplitWs user_response).map _normalize_word).filter (fun w => w != "")

/-- Result record of `analyze_reading_level`. -/
structure NivelResultado where
  nivel : String
  acertos : Nat
  total : Nat
  taxa_acerto : ℚ
deriving Repr, DecidableEq

/-- `_classify_level` of literacy_evaluator.py. -/
def _classify_level (taxa_acerto : ℚ) : String :=
  if taxa_acerto ≥ 80 then "avançado"
  else if taxa_acerto ≥ 50 then "intermediário"
  else "iniciante"

/-- `analyze_reading_level` of literacy_evaluator.py: normalize user words and
expected words, count user tokens that fall in the expected set, and classify.
The Python `set(...)` of normalized expected words is modelled by `List.dedup`
(only membership, cardinality and emptiness of the set are ever used). -/
def analyze_reading_level (user_response : String) (expected_words : List String) : NivelResultado :=
  let user_words := userTokens user_response
  let expected_set := (expected_words.map _normalize_word).dedup
  let acertos := (user_words.filter (fun w => decide (w ∈ expected_set))).length
  let total := expected_words.length
  let taxa_acerto : ℚ := if total > 0 then ((acertos : ℚ) / (total : ℚ)) * 100 else 0
  { nivel := _classify_level taxa_acerto
    acertos := acertos
    total := total
    taxa_acerto := taxa_acerto }

/-- `get_test_words` of literacy_evaluator.py. -/
def get_test_words (nivel : String) : List String :=
  if nivel = "basico" then ["CASA", "SOL", "PATO", "BOLA"]
  else if nivel = "intermediario" then ["ESCOLA", "CACHORRO", "BANANA", "LIVRO"]
  else if nivel = "avancado" then ["BIBLIOTECA", "COMPUTADOR", "TELEVISÃO", "BICICLETA"]
  else ["CASA", "SOL", "PATO", "BOLA"]

/-! ## A model of Python json values and json.loads

`json.loads` is Python standard-library code (not repository code); it is
modelled here by an executable strict parser over the JSON subset the program
exchanges with the completion service: objects, arrays, strings with the
simple escapes, integer numerals, `true`/`false`/`null`.  Like `json.loads`,
the model accepts a value only when the whole input (up to surrounding
whitespace) is a single JSON value, and it fails (returns `none`, the model of
a raised `JSONDecodeError`) on anything else.  Float numerals and `\u` escapes
are outside the model; no claim depends on them. -/

/-- Python objects decoded from JSON. -/
inductive Json where
  | null : Json
  | bool (b : Bool) : Json
  | num (n : Int) : Json
  | str (s : String) : Json
  | arr (xs : List Json) : Json
  | obj (kvs : List (String × Json)) : Json

/-- JSON whitespace. -/
def jsonWs (c : Char) : Bool :=
  c == ' ' || c == '\t' || c == '\n' || c == '\r'

/-- Scan the body of a JSON string literal (after the opening quote),
handling the simple backslash escapes; fails on `\u` and unknown escapes. -/
def scanStr (acc : List Char) : List Char → Option (List Char × List Char)
  | [] => none
  | c :: cs =>
    if c = quoteC then some (acc.reverse, cs)
    else if c = backslashC then
      match cs with
      | [] => none
      | e :: es =>
        if e = quoteC then scanStr (quoteC :: acc) es
        else if e = backslashC then scanStr (backslashC :: acc) es
        else if e = '/' then scanStr ('/' :: acc) es
        else if e = 'n' then scanStr ('\n' :: acc) es
        else if e = 't' then scanStr ('\t' :: acc) es
        else if e = 'r' then scanStr ('\r' :: acc) es
        else if e = 'b' then scanStr (Char.ofNat 8 :: acc) es
        else if e = 'f' then scanStr (Char.ofNat 12 :: acc) es
        else none
    else scanStr (c :: acc) cs

/-- Parse a JSON string literal (expects the opening quote). -/
def parseStr (l : List Char) : Option (String × List Char) :=
  match l with
  | [] => none
  | c :: cs => if c = quoteC then (scanStr [] cs).map (fun p => (String.mk p.1, p.2)) else none

/-- Digits of a numeral to a natural number. -/
def digitsToNat (ds : List Char) : Nat :=
  ds.foldl (fun n c => n * 10 + (c.toNat - 48)) 0

/-- Parse a JSON integer numeral; fails if a fractional part or exponent
follows (floats are outside the model). -/
def parseNum (l : List Char) : Option (Json × List Char) :=
  let (neg, l1) := match l with
                   | c :: cs => if c = '-' then (true, cs) else (false, l)
                   | [] => (false, l)
  let ds := l1.takeWhile Char.isDigit
  let rest := l1.dropWhile Char.isDigit
  if ds.isEmpty then none
  else
    match rest with
    | c :: _ => if c = '.' ∨ c = 'e' ∨ c = 'E' then none
                else some (.num (if neg then -(digitsToNat ds : Int) else (digitsToNat ds : Int)), rest)
    | [] => some (.num (if neg then -(digitsToNat ds : Int) else (digitsToNat ds : Int)), rest)

mutual

/-- Parse one JSON value; the fuel only bounds nesting and is always supplied
amply (one unit per input character). -/
def parseV : Nat → List Char → Option (Json × List Char)
  | 0, _ => none
  | f + 1, l =>
    let l1 := l.dropWhile jsonWs
    match l1 with
    | [] => none
    | c :: cs =>
      if c = lbraceC then
        let cs1 := cs.dropWhile jsonWs
        match cs1 with
        | d :: ds => if d = rbraceC then some (.obj [], ds) else parseMembers f cs1 []
        | [] => none
      else if c = '[' then
        let cs1 := cs.dropWhile jsonWs
        match cs1 with
        | d :: ds => if d = ']' then some (.arr [], ds) else parseItems f cs1 []
        | [] => none
      else if c = quoteC then
        (parseStr l1).map (fun p => (.str p.1, p.2))
      else if c = 't' then
        if ['r', 'u', 'e'].isPrefixOf cs then some (.bool true, cs.drop 3) else none
      else if c = 'f' then
        if ['a', 'l', 's', 'e'].isPrefixOf cs then some (.bool false, cs.drop 4) else none
      else if c = 'n' then
        if ['u', 'l', 'l'].isPrefixOf cs then some (.null, cs.drop 3) else none
      else if c = '-' ∨ c.isDigit then parseNum l1
      else none

/-- Parse the members of a JSON object (after the opening brace, at least one
member present). -/
def parseMembers : Nat → List Char → List (String × Json) → Option (Json × List Char)
  | 0, _, _ => none
  | f + 1, l, acc =>
    let l1 := l.dropWhile jsonWs
    match parseStr l1 with
    | none => none
    | some (k, rest) =>
      let rest1 := rest.dropWhile jsonWs
      match rest1 with
      | c :: rs =>
        if c = ':' then
          match parseV f rs with
          | none => none
          | some (v, rest2) =>
            let rest3 := rest2.dropWhile jsonWs
            match rest3 with
            | c2 :: rs2 =>
              if c2 = ',' then parseMembers f rs2 (acc ++ [(k, v)])
              else if c2 = rbraceC then some (.obj (acc ++ [(k, v)]), rs2)
              else none
            | [] => none
        else none
      | [] => none

/-- Parse the items of a JSON array (after the opening bracket, at least one
item present). -/
def parseItems : Nat → List Char → List Json → Option (Json × List Char)
  | 0, _, _ => none
  | f + 1, l, acc =>
    match parseV f l with
    | none => none
    | some (v, rest) =>
      let rest1 := rest.dropWhile jsonWs
      match rest1 with
      | c :: rs =>
        if c = ',' then parseItems f rs (acc ++ [v])
        else if c = ']' then some (.arr (acc ++ [v]), rs)
        else none
      | [] => none

end

/-- Model of `json.loads`: the whole string must be one JSON value, possibly
surrounded by whitespace; `none` models a raised `JSONDecodeError`. -/
def parseJson (s : String) : Option Json :=
  match parseV (s.length + 1) s.data with
  | some (j, rest) => if (rest.dropWhile jsonWs).isEmpty then some j else none
  | none => none

/-- Python `dict.get` on a decoded JSON object (`json.loads` keeps the last
occurrence of a duplicated key, hence the reversed search). -/
def jget (kvs : List (String × Json)) (k : String) : Option Json :=
  (kvs.reverse.find? (fun kv => kv.1 == k)).map (fun kv => kv.2)

/-- Python truthiness of a decoded JSON value. -/
def jTruthy : Json → Bool
  | .null => false
  | .bool b => b
  | .num n => n != 0
  | .str s => s != ""
  | .arr xs => !xs.isEmpty
  | .obj kvs => !kvs.isEmpty

/-- Python `repr(x)` on a decoded JSON value (strings quoted), with the fuel
bounding the nesting depth (always supplied amply by callers). -/
def pyReprF : Nat → Json → String
  | _, .str s => String.mk [aposC] ++ s ++ String.mk [aposC]
  | _, .bool true => "True"
  | _, .bool false => "False"
  | _, .null => "None"
  | _, .num n => toString n
  | 0, .arr _ => "[]"
  | 0, .obj _ => String.mk [lbraceC, rbraceC]
  | f + 1, .arr xs =>
      "[" ++ String.intercalate ", " (xs.map (fun x => pyReprF f x)) ++ "]"
  | f + 1, .obj kvs =>
      String.mk [lbraceC] ++
        String.intercalate ", "
          (kvs.map (fun kv => String.mk [aposC] ++ kv.1 ++ String.mk [aposC] ++ ": " ++ pyReprF f kv.2)) ++
        String.mk [rbraceC]

/-- Python `str(x)` on a decoded JSON value.  Scalars are exact; containers
render through `pyReprF` as in Python. -/
def pyStrF (f : Nat) : Json → String
  | .str s => s
  | .bool true => "True"
  | .bool false => "False"
  | .null => "None"
  | .num n => toString n
  | .arr xs => pyReprF (f + 1) (.arr xs)
  | .obj kvs => pyReprF (f + 1) (.obj kvs)

/-! ## services/reading_exercises.py -/

/-- A reading exercise as returned by `get_reading_text` and
`generate_dynamic_reading_challenge` (the Python dict with keys titulo, texto,
dificuldade, palavras_chave).  In the dynamic path `palavras_chave` is kept as
raw decoded JSON values, as the source does. -/
structure Exercicio where
  titulo : String
  texto : String
  dificuldade : Nat
  palavras_chave : List Json

/-- The static iniciante bank of `get_reading_text`. -/
def textos_iniciante : List Exercicio :=
  [{ titulo := "O Sol e a Lua"
     texto := "O sol brilha de dia. A lua brilha de noite. O sol é quente. A lua é fria."
     dificuldade := 1
     palavras_chave := [.str "sol", .str "lua", .str "dia", .str "noite", .str "quente", .str "fria"] },
   { titulo := "Minha Casa"
     texto := "Eu tenho uma casa. A casa tem porta. A casa tem janela. Eu gosto da minha casa."
     dificuldade := 1
     palavras_chave := [.str "casa", .str "porta", .str "janela", .str "gosto"] },
   { titulo := "O Gato"
     texto := "O gato é bonito. O gato bebe leite. O gato gosta de brincar. Eu amo meu gato."
     dificuldade := 1
     palavras_chave := [.str "gato", .str "bonito", .str "leite", .str "brincar", .str "amo"] }]

/-- The static intermediário bank of `get_reading_text`. -/
def textos_intermediario : List Exercicio :=
  [{ titulo := "O Dia na Escola"
     texto := "Todos os dias eu vou para a escola. Na escola eu aprendo a ler e escrever. Minha professora é muito legal. Eu gosto de estudar com meus amigos."
     dificuldade := 2
     palavras_chave := [.str "escola", .str "aprendo", .str "ler", .str "escrever", .str "professora", .str "estudar", .str "amigos"] },
   { titulo := "Meu Final de Semana"
     texto := "No fim de semana eu gosto de brincar. Eu jogo bola com meus amigos. Também ajudo minha mãe em casa. É muito divertido."
     dificuldade := 2
     palavras_chave := [.str "fim de semana", .str "brincar", .str "jogo", .str "bola", .str "ajudo", .str "mãe", .str "divertido"] },
   { titulo := "Meu Animal Favorito"
     texto := "Meu animal favorito é o cachorro. Os cachorros são fiéis e brincam muito. Eles gostam de passear e correr no parque. Eu quero ter um cachorro."
     dificuldade := 2
     palavras_chave := [.str "animal", .str "cachorro", .str "fiéis", .str "passear", .str "correr", .str "parque"] }]

/-- The static avançado bank of `get_reading_text`. -/
def textos_avancado : List Exercicio :=
  [{ titulo := "A Importância da Leitura"
     texto := "A leitura é fundamental para o desenvolvimento pessoal. Quando lemos, aprendemos coisas novas e expandimos nossa imaginação. Os livros nos levam a lugares diferentes e nos apresentam pessoas interessantes. Por isso, devemos ler todos os dias."
     dificuldade := 3
     palavras_chave := [.str "leitura", .str "fundamental", .str "desenvolvimento", .str "aprendemos", .str "imaginação", .str "expandimos"] },
   { titulo := "Cuidando do Meio Ambiente"
     texto := "É importante cuidar do meio ambiente. Podemos fazer isso reciclando o lixo, economizando água e plantando árvores. Quando cuidamos da natureza, estamos cuidando do nosso futuro e do planeta onde vivemos."
     dificuldade := 3
     palavras_chave := [.str "meio ambiente", .str "reciclando", .str "economizando", .str "plantando", .str "natureza", .str "futuro", .str "planeta"] }]

/-- `get_reading_text` of reading_exercises.py: static per-level bank, indexed
by `(exercicio_num - 1) % len(bank)` (Python `%`, i.e. `Int.emod`).  The level
argument is optional because callers pass `state["nivel_alfabetizacao"]`,
which can be `None`; any unknown level falls back to the iniciante bank, as
`dict.get` does in the source. -/
def get_reading_text (nivel : Option String) (exercicio_num : Int) : Exercicio :=
  let textos :=
    if nivel = some "iniciante" then textos_iniciante
    else if nivel = some "intermediário" then textos_intermediario
    else if nivel = some "avançado" then textos_avancado
    else textos_iniciante
  let index := ((exercicio_num - 1) % (textos.length : Int)).toNat
  textos.getD index { titulo := "", texto := "", dificuldade := 0, palavras_chave := [] }

/-- Python `str.lower()` on a whole string. -/
def pyLowerS (s : String) : String := String.mk (s.data.map pyLower)

/-- Python substring membership `sub in s`. -/
def containsSub (h sub : List Char) : Bool :=
  (List.range (h.length + 1)).any (fun i => sub.isPrefixOf (h.drop i))

/-- The level normalisation at the top of `generate_dynamic_reading_challenge`:
`(nivel or "iniciante").lower()`, then substring tests for "avanc" / "inter". -/
def normNivel (nivel : Option String) : String :=
  let base :=
    match nivel with
    | none => "iniciante"
    | some s => if s = "" then "iniciante" else s
  let n := pyLowerS base
  if containsSub n.data "avanc".data then "avançado"
  else if containsSub n.data "inter".data then "intermediário"
  else "iniciante"

/-- Python `texto.replace("\n", " ")` on a character list. -/
def replaceNlCL (l : List Char) : List Char :=
  l.map (fun c => if c = '\n' then ' ' else c)

/-- Python `texto.replace("\n", " ")`. -/
def replaceNlS (s : String) : String := String.mk (replaceNlCL s.data)

/-- The per-level coercions applied to the model-produced `texto` in
`generate_dynamic_reading_challenge` (the "Garantias mínimas por nível" block,
lines 190-212 of reading_exercises.py). -/
def coerce_texto (nivel_norm : String) (texto : String) : String :=
  if nivel_norm = "iniciante" then
    let t := stripS (replaceNlS texto)
    let partes := pySplitWs t
    if partes.length ≠ 1 then
      match partes with
      | [] => "SOL"
      | p :: _ => p
    else t
  else if nivel_norm = "intermediário" then
    let palavras := pySplitWs (replaceNlS texto)
    let palavras :=
      if palavras.length < 3 then (palavras ++ ["casa", "bola", "gato"]).take 3
      else if palavras.length > 6 then palavras.take 6
      else palavras
    pyJoinSp palavras
  else
    let palavras := pySplitWs (replaceNlS texto)
    if palavras.length = 0 then "Eu leio um livro."
    else if palavras.length > 16 then stripS (pyJoinSp (palavras.take 16))
    else texto

/-- Python `s.find(c)`: index of the first occurrence, or -1. -/
def pyFindChar (l : List Char) (c : Char) : Int :=
  match l.findIdx? (fun d => d == c) with
  | some i => (i : Int)
  | none => -1

/-- Python `s.rfind(c)`: index of the last occurrence, or -1. -/
def pyRFindChar (l : List Char) (c : Char) : Int :=
  match l.reverse.findIdx? (fun d => d == c) with
  | some i => ((l.length - 1 - i : Nat) : Int)
  | none => -1

/-- Python slice `l[a:b]` for nonnegative bounds. -/
def pySliceCL (l : List Char) (a b : Nat) : List Char := (l.take b).drop a

/-- `_extract_json` of reading_exercises.py: take the whole (stripped) text if
it is brace-delimited, otherwise the slice from the first opening brace to the
last closing brace, otherwise an empty JSON object. -/
def _extract_json (text : String) : String :=
  let t := stripCL text.data
  if [lbraceC].isPrefixOf t ∧ [rbraceC].isPrefixOf t.reverse then String.mk t
  else
    let s := pyFindChar t lbraceC
    let e := pyRFindChar t rbraceC
    if s ≠ -1 ∧ e ≠ -1 ∧ s < e then String.mk (pySliceCL t s.toNat (e.toNat + 1))
    else String.mk [lbraceC, rbraceC]

/-- The `x or y` idiom `data.get(k) or default` of the dynamic generator:
the looked-up value when present and truthy, else the default. -/
def jGetOr (kvs : List (String × Json)) (k : String) (dflt : Json) : Json :=
  match jget kvs k with
  | some v => if jTruthy v then v else dflt
  | none => dflt

/-- `generate_dynamic_reading_challenge` of reading_exercises.py.  The
completion call is external: `dyn_content` is `some` of the model reply text,
or `none` when the OpenAI client is absent or the call raised (both fall back
to the static bank, with the raw and the normalised level respectively, as in
the source).  The reply is run through `_extract_json`, `json.loads`, the
`str(... or ...)` saneamento and the per-level `coerce_texto` coercions; any
parse failure (or a non-dict value, whose `.get` raises) falls back to the
static bank. -/
def generate_dynamic_reading_challenge (dyn_content : Option String)
    (nivel : Option String) (exercicio_num : Int) : Exercicio :=
  match dyn_content with
  | none => get_reading_text nivel exercicio_num
  | some content =>
    let nivel_norm := normNivel nivel
    let dificuldade := if nivel_norm = "iniciante" then 1
                       else if nivel_norm = "intermediário" then 2 else 3
    let titulo_padrao := if nivel_norm = "iniciante" then "Palavra do Dia"
                         else if nivel_norm = "intermediário" then "Palavras Básicas"
                         else "Leitura Simples"
    match parseJson (_extract_json content) with
    | none => get_reading_text (some nivel_norm) exercicio_num
    | some (.obj kvs) =>
      let titulo := stripS (pyStrF content.length (jGetOr kvs "titulo" (.str titulo_padrao)))
      let texto := stripS (pyStrF content.length (jGetOr kvs "texto" (.str "")))
      let palavras_chave : List Json :=
        match jGetOr kvs "palavras_chave" (.arr []) with
        | .arr xs => xs
        | _ => []
      let texto := coerce_texto nivel_norm texto
      { titulo := if titulo ≠ "" then titulo else titulo_padrao
        texto := texto
        dificuldade := dificuldade
        palavras_chave := palavras_chave.take 8 }
    | some _ => get_reading_text (some nivel_norm) exercicio_num

/-- The shape constraint the spec requires of a generated passage, per
normalised level (beginner: exactly one token; intermediate: 3 to 6 tokens;
advanced: at most 16 tokens).  Stated from the spec wording, to be compared
against the code. -/
def levelShapeSpec (nivel_norm : String) (tokenCount : Nat) : Prop :=
  if nivel_norm = "iniciante" then tokenCount = 1
  else if nivel_norm = "intermediário" then 3 ≤ tokenCount ∧ tokenCount ≤ 6
  else if nivel_norm = "avançado" then tokenCount ≤ 16
  else True

/-! ## A model of difflib.SequenceMatcher

`difflib` is Python standard-library code used by `analyze_reading_attempt`
and `_identificar_erros`.  The model mirrors `SequenceMatcher(None, a, b)`:
`__chain_b` (with the autojunk popularity rule; the junk set itself is empty
because no `isjunk` is passed), `find_longest_match` (the dynamic-programming
row loop with the `j2len` dictionary, modelled as a total function defaulting
to 0, followed by the two non-junk extension loops; the two junk extension
loops never run because the junk set is empty), `get_matching_blocks` (the
LIFO queue loop, then sorting and merging of adjacent blocks), `get_opcodes`
and `ratio`. -/

section DiffLib

variable {α : Type} [DecidableEq α]

/-- The autojunk "popular" rule of `SequenceMatcher.__chain_b`: with no junk
argument, an element is dropped from `b2j` iff `len(b) >= 200` and it occurs
more than `len(b) // 100 + 1` times in `b`. -/
def popularB (b : List α) (x : α) : Bool :=
  decide (200 ≤ b.length) && decide (b.length / 100 + 1 < b.count x)

/-- `b2j` of `SequenceMatcher`, as a function: the increasing list of indices
of `x` in `b`, empty for popular (autojunk-dropped) elements. -/
def b2jF (b : List α) (pop : α → Bool) (x : α) : List Nat :=
  if pop x then []
  else (List.range b.length).filter (fun j => decide (b.get? j = some x))

/-- State of the best match in `find_longest_match`. -/
structure FlmBest where
  besti : Nat
  bestj : Nat
  bestsize : Nat
deriving Repr, DecidableEq

/-- The inner `for j in b2j.get(a[i], [])` loop of `find_longest_match`:
`j2len` is the previous row's dictionary, `nd` the new row being built (the
`continue`/`break` window tests become the guard).  `j2len.get(j-1, 0)` reads
0 at `j = 0` (key `-1` is never present). -/
def flmInnerJ (i blo bhi : Nat) (j2len : Nat → Nat) :
    List Nat → (Nat → Nat) → FlmBest → ((Nat → Nat) × FlmBest)
  | [], nd, best => (nd, best)
  | j :: js, nd, best =>
    if blo ≤ j ∧ j < bhi then
      let k := (if j = 0 then 0 else j2len (j - 1)) + 1
      let nd1 : Nat → Nat := fun x => if x = j then k else nd x
      let best1 : FlmBest := if best.bestsize < k then ⟨i + 1 - k, j + 1 - k, k⟩ else best
      flmInnerJ i blo bhi j2len js nd1 best1
    else flmInnerJ i blo bhi j2len js nd best

/-- The outer `for i in range(alo, ahi)` loop of `find_longest_match`,
iterating `cnt = ahi - i` more rows. -/
def flmMain (a : List α) (getJs : α → List Nat) (blo bhi : Nat) :
    Nat → Nat → (Nat → Nat) → FlmBest → FlmBest
  | _, 0, _, best => best
  | i, cnt + 1, j2len, best =>
    match a.get? i with
    | none => best
    | some ai =>
      let r := flmInnerJ i blo bhi j2len (getJs ai) (fun _ => 0) best
      flmMain a getJs blo bhi (i + 1) cnt r.1 r.2

/-- The junk predicate of `SequenceMatcher(None, a, b)`: the junk set is
always empty (autojunk only fills the separate popular set). -/
def bjunk (_x : α) : Bool := false

/-- `isbjunk(b[j])`, out-of-range indices treated as non-junk (they never
occur on the loop conditions that use this). -/
def bjunkAt (b : List α) (j : Nat) : Bool :=
  match b.get? j with
  | some y => bjunk y
  | none => false

/-- `a[i] == b[j]` with validity of both indices. -/
def agree (a b : List α) (i j : Nat) : Bool :=
  match a.get? i, b.get? j with
  | some x, some y => decide (x = y)
  | _, _ => false

/-- The first (backward, non-junk) extension while-loop of
`find_longest_match`.  The fuel passed by the caller bounds the number of
iterations, which is at most `besti - alo`. -/
def extendBack (a b : List α) (alo blo : Nat) : Nat → FlmBest → FlmBest
  | 0, best => best
  | f + 1, best =>
    if alo < best.besti ∧ blo < best.bestj ∧
        bjunkAt b (best.bestj - 1) = false ∧
        agree a b (best.besti - 1) (best.bestj - 1) = true then
      extendBack a b alo blo f ⟨best.besti - 1, best.bestj - 1, best.bestsize + 1⟩
    else best

/-- The second (forward, non-junk) extension while-loop of
`find_longest_match`; at most `ahi - besti - bestsize` iterations. -/
def extendFwd (a b : List α) (ahi bhi : Nat) : Nat → FlmBest → FlmBest
  | 0, best => best
  | f + 1, best =>
    if best.besti + best.bestsize < ahi ∧ best.bestj + best.bestsize < bhi ∧
        bjunkAt b (best.bestj + best.bestsize) = false ∧
        agree a b (best.besti + best.bestsize) (best.bestj + best.bestsize) = true then
      extendFwd a b ahi bhi f ⟨best.besti, best.bestj, best.bestsize + 1⟩
    else best

/-- `find_longest_match(alo, ahi, blo, bhi)`.  The two junk extension loops
of difflib are omitted: the junk set is empty, so they never iterate. -/
def find_longest_match (a b : List α) (pop : α → Bool) (alo ahi blo bhi : Nat) : FlmBest :=
  let m := flmMain a (b2jF b pop) blo bhi alo (ahi - alo) (fun _ => 0) ⟨alo, blo, 0⟩
  let m1 := extendBack a b alo blo m.besti m
  extendFwd a b ahi bhi (ahi + bhi) m1

/-- The queue loop of `get_matching_blocks`.  Python uses `queue.pop()` (a
LIFO stack); the head of the list is the top of the stack, so of the two
windows pushed after a match the upper one is pushed last, i.e. placed first.
Each popped window either produces nothing or one block (of size ≥ 1) and two
sub-windows, so the number of pops is at most `1 + 2 * min(len a, len b)`;
the fuel passed by `get_matching_blocks` amply covers that. -/
def gmbLoop (a b : List α) (pop : α → Bool) :
    Nat → List (Nat × Nat × Nat × Nat) → List (Nat × Nat × Nat) → List (Nat × Nat × Nat)
  | 0, _, acc => acc
  | _ + 1, [], acc => acc
  | f + 1, w :: rest, acc =>
    let m := find_longest_match a b pop w.1 w.2.1 w.2.2.1 w.2.2.2
    if 0 < m.bestsize then
      gmbLoop a b pop f
        ((m.besti + m.bestsize, w.2.1, m.bestj + m.bestsize, w.2.2.2) ::
          (w.1, m.besti, w.2.2.1, m.bestj) :: rest)
        ((m.besti, m.bestj, m.bestsize) :: acc)
    else gmbLoop a b pop f rest acc

/-- Lexicographic order on `(i, j, size)` triples (Python tuple sort). -/
def blockLe (x y : Nat × Nat × Nat) : Bool :=
  decide (x.1 < y.1) ||
    (decide (x.1 = y.1) &&
      (decide (x.2.1 < y.2.1) || (decide (x.2.1 = y.2.1) && decide (x.2.2 ≤ y.2.2))))

/-- Stable insertion of `x` into an already sorted list (`x` goes after equal
elements). -/
def insertSorted (le : α → α → Bool) (x : α) : List α → List α
  | [] => [x]
  | y :: ys => if le y x then y :: insertSorted le x ys else x :: y :: ys

/-- A stable sort (model of Python's `sorted`, which is stable; for the total
preorder `blockLe`, every stable sort produces the same list). -/
def pySorted (le : α → α → Bool) (l : List α) : List α :=
  l.foldl (fun acc x => insertSorted le x acc) []

/-- The adjacent-block merging loop at the end of `get_matching_blocks`
(running accumulator starts at `(0, 0, 0)`; a block with size 0 is dropped). -/
def mergeAdjacent : (Nat × Nat × Nat) → List (Nat × Nat × Nat) → List (Nat × Nat × Nat)
  | cur, [] => if 0 < cur.2.2 then [cur] else []
  | cur, bl :: bls =>
    if cur.1 + cur.2.2 = bl.1 ∧ cur.2.1 + cur.2.2 = bl.2.1 then
      mergeAdjacent (cur.1, cur.2.1, cur.2.2 + bl.2.2) bls
    else if 0 < cur.2.2 then cur :: mergeAdjacent bl bls
    else mergeAdjacent bl bls

/-- `get_matching_blocks` of `SequenceMatcher`: queue loop, sort, merge, and
the final `(len(a), len(b), 0)` sentinel. -/
def get_matching_blocks (a b : List α) : List (Nat × Nat × Nat) :=
  let pop := popularB b
  let blocks := gmbLoop a b pop (2 * (a.length + b.length) + 3) [(0, a.length, 0, b.length)] []
  mergeAdjacent (0, 0, 0) (pySorted blockLe blocks) ++ [(a.length, b.length, 0)]

/-- `SequenceMatcher.ratio()`: `2 * matches / (len(a) + len(b))`, and 1.0 when
both sequences are empty. -/
def razaoSM (a b : List α) : ℚ :=
  let ms := ((get_matching_blocks a b).map (fun t => t.2.2)).sum
  let len := a.length + b.length
  if 0 < len then 2 * (ms : ℚ) / (len : ℚ) else 1

/-- The tag-walking loop of `get_opcodes`. -/
def opcodesLoop : Nat → Nat → List (Nat × Nat × Nat) → List (String × Nat × Nat × Nat × Nat)
  | _, _, [] => []
  | i, j, bl :: rest =>
    let ai := bl.1
    let bj := bl.2.1
    let size := bl.2.2
    let tag := if i < ai ∧ j < bj then "replace"
               else if i < ai then "delete"
               else if j < bj then "insert"
               else ""
    (if tag ≠ "" then [(tag, i, ai, j, bj)] else []) ++
      (if 0 < size then [("equal", ai, ai + size, bj, bj + size)] else []) ++
      opcodesLoop (ai + size) (bj + size) rest

/-- `SequenceMatcher.get_opcodes()`. -/
def get_opcodes (a b : List α) : List (String × Nat × Nat × Nat × Nat) :=
  opcodesLoop 0 0 (get_matching_blocks a b)

end DiffLib

/-- `_normalize_text` of reading_exercises.py: remove punctuation, lowercase,
strip accents, collapse whitespace (`' '.join(text.split())`). -/
def _normalize_text (text : String) : String :=
  let t := ((text.data.filter (fun c => !(pyPunct.contains c))).map pyLower).map stripAccent
  String.mk (joinWordsCL (wordsCL t))

/-- The error report of `_identificar_erros`.  The Python `set` differences
are modelled as duplicate-free lists in first-occurrence order; only their
membership, emptiness and cardinality are ever used (Python's own set
iteration order is hash-dependent). -/
structure Erros where
  palavras_erradas : List (String × String)
  palavras_faltantes : List String
  palavras_extras : List String
deriving Repr, DecidableEq

/-- `_identificar_erros` of reading_exercises.py: set-difference missing and
extra words (each capped at 5), plus the pairwise substitutions of every
`replace` opcode of the alignment. -/
def _identificar_erros (esperadas lidas : List String) : Erros :=
  let esperadas_set := esperadas.dedup
  let lidas_set := lidas.dedup
  let palavras_faltantes := esperadas_set.filter (fun w => decide (w ∉ lidas_set))
  let palavras_extras := lidas_set.filter (fun w => decide (w ∉ esperadas_set))
  let ops := get_opcodes esperadas lidas
  let palavras_erradas :=
    (ops.filter (fun op => op.1 == "replace")).flatMap (fun op =>
      ((List.range' op.2.1 (op.2.2.1 - op.2.1)).zip
        (List.range' op.2.2.2.1 (op.2.2.2.2 - op.2.2.2.1))).filterMap (fun ij =>
          match esperadas.get? ij.1, lidas.get? ij.2 with
          | some e, some l => some (e, l)
          | _, _ => none))
  { palavras_erradas := palavras_erradas
    palavras_faltantes := palavras_faltantes.take 5
    palavras_extras := palavras_extras.take 5 }

/-- Python `round(x)` (round half to even), on rationals. -/
def roundHalfEven (q : ℚ) : ℤ :=
  let f := ⌊q⌋
  let r := q - (f : ℚ)
  if r < 1 / 2 then f
  else if 1 / 2 < r then f + 1
  else if Even f then f else f + 1

/-- Python `round(x, 1)`, on rationals. -/
def round1 (q : ℚ) : ℚ := (roundHalfEven (q * 10) : ℚ) / 10

/-- Result record of `analyze_reading_attempt`. -/
structure AttemptResult where
  similaridade : ℚ
  avaliacao : String
  feedback : String
  total_palavras_esperadas : Nat
  total_palavras_lidas : Nat
  erros : Erros
  acertos : Int
deriving Repr, DecidableEq

/-- `analyze_reading_attempt` of reading_exercises.py: normalize both texts,
tokenize, score by `SequenceMatcher.ratio`, itemize errors, classify, and
count `acertos = total_expected - substitutions - missing` (an `int` in
Python, so modelled as `Int`: the subtraction can go negative). -/
def analyze_reading_attempt (texto_esperado texto_lido : String) : AttemptResult :=
  let esperado_normalizado := _normalize_text texto_esperado
  let lido_normalizado := _normalize_text texto_lido
  let palavras_esperadas := pySplitWs esperado_normalizado
  let palavras_lidas := pySplitWs lido_normalizado
  let similaridade_percent := razaoSM palavras_esperadas palavras_lidas * 100
  let erros := _identificar_erros palavras_esperadas palavras_lidas
  let av :=
    if similaridade_percent ≥ 90 then ("excelente", "Parabéns! Você leu muito bem! 🎉")
    else if similaridade_percent ≥ 70 then
      ("bom", "Muito bem! Você leu quase tudo certo! Continue praticando! 👏")
    else if similaridade_percent ≥ 50 then
      ("regular", "Bom esforço! Vamos praticar mais para melhorar! 💪")
    else ("precisa_melhorar", "Não se preocupe! Vamos praticar juntos até você conseguir! 😊")
  { similaridade := round1 similaridade_percent
    avaliacao := av.1
    feedback := av.2
    total_palavras_esperadas := palavras_esperadas.length
    total_palavras_lidas := palavras_lidas.length
    erros := erros
    acertos := (palavras_esperadas.length : Int) -
      (erros.palavras_erradas.length : Int) - (erros.palavras_faltantes.length : Int) }

/-! ## services/user_state_manager.py -/

/-- The per-user state dict.  Optional fields model keys that may be absent
(`exercicio_numero`, `texto_atual`, `texto_titulo` are only added by later
phases) or hold `None`.  `ultimo_acesso` is an integer timestamp in seconds;
`none` covers both a missing key and an unparsable value, which the source
treats identically (never expired). -/
structure UserState where
  fase : String
  nome : Option String
  idade : Option Int
  nivel_alfabetizacao : Option String
  palavras_teste : List String
  acertos : Int
  total_testes : Int
  ultimo_acesso : Option Int
  exercicio_numero : Option Int
  texto_atual : Option String
  texto_titulo : Option String
deriving Repr, DecidableEq

/-- `_get_default_state` of user_state_manager.py. -/
def _get_default_state (now : Int) : UserState :=
  { fase := "inicial", nome := none, idade := none, nivel_alfabetizacao := none
    palavras_teste := [], acertos := 0, total_testes := 0, ultimo_acesso := some now
    exercicio_numero := none, texto_atual := none, texto_titulo := none }

/-- `_is_conversation_expired`: strictly more than 24 hours (86400 s) since
`ultimo_acesso`; false when the timestamp is missing or unparsable. -/
def _is_conversation_expired (state : UserState) (now : Int) : Bool :=
  match state.ultimo_acesso with
  | none => false
  | some t => decide (86400 < now - t)

/-- The two stores of `UserStateManager`: the in-memory cache dict and the
on-disk JSON files. -/
structure StateMgr where
  cache : String → Option UserState
  disk : String → Option UserState

/-- `_load_user_state`: read from disk; an expired record resets to the
default state, otherwise the access timestamp is refreshed; a missing file
yields the default state. -/
def _load_user_state (m : StateMgr) (user_id : String) (now : Int) : UserState :=
  match m.disk user_id with
  | some state =>
    if _is_conversation_expired state now then _get_default_state now
    else { state with ultimo_acesso := some now }
  | none => _get_default_state now

/-- The field clearing applied by `get_user_state` whenever the phase is
"inicial" (the GARANTIA block, lines 61-68). -/
def clearInitialFields (state : UserState) : UserState :=
  { state with
    nome := none, idade := none, nivel_alfabetizacao := none,
    palavras_teste := [], acertos := 0, total_testes := 0 }

/-- `get_user_state`: load into the cache on a miss, then clear the personal
fields if the phase is "inicial".  The state dict is mutated in place in
Python, so the cleared fields are also visible in the cache afterwards. -/
def get_user_state (m : StateMgr) (user_id : String) (now : Int) : UserState × StateMgr :=
  let m1 := if (m.cache user_id).isSome then m
            else { m with cache := fun u =>
                    if u = user_id then some (_load_user_state m user_id now) else m.cache u }
  let st0 := (m1.cache user_id).getD (_get_default_state now)
  let st := if st0.fase = "inicial" then clearInitialFields st0 else st0
  (st, { m1 with cache := fun u => if u = user_id then some st else m1.cache u })

/-! ## services/conversation_history.py -/

/-- A history entry (`{role, content, timestamp}`). -/
structure Msg where
  role : String
  content : String
  timestamp : Int
deriving Repr, DecidableEq

/-- The two stores of `ConversationHistoryManager`. -/
structure HistMgr where
  cache : String → Option (List Msg)
  disk : String → Option (List Msg)

/-- `_load_user_history`: the on-disk list, or `[]`. -/
def _load_user_history (m : HistMgr) (user_id : String) : List Msg :=
  (m.disk user_id).getD []

/-- Python slice `l[x:]` (negative `x` counts from the end, clamped). -/
def pySliceFrom (l : List α) (x : Int) : List α :=
  if 0 ≤ x then l.drop x.toNat else l.drop (l.length - (-x).toNat)

/-- `get_history` of conversation_history.py: load into the cache on a miss;
`if limit:` is Python truthiness, so both `None` and `0` return the whole
history, and otherwise the result is the slice `history[-limit:]`. -/
def get_history (m : HistMgr) (user_id : String) (limit : Option Int) : List Msg × HistMgr :=
  let m1 := if (m.cache user_id).isSome then m
            else { m with cache := fun u =>
                    if u = user_id then some (_load_user_history m user_id) else m.cache u }
  let history := (m1.cache user_id).getD []
  let result :=
    match limit with
    | none => history
    | some l => if l ≠ 0 then pySliceFrom history (-l) else history
  (result, m1)

/-- `add_message` of conversation_history.py: load on a cache miss, append
the role-tagged message, persist (write-through). -/
def add_message (m : HistMgr) (user_id : String) (message : String) (is_user : Bool)
    (now : Int) : HistMgr :=
  let hist := match m.cache user_id with
              | some h => h
              | none => _load_user_history m user_id
  let hist1 := hist ++ [{ role := if is_user then "user" else "assistant"
                          content := message, timestamp := now }]
  { cache := fun u => if u = user_id then some hist1 else m.cache u
    disk := fun u => if u = user_id then some hist1 else m.disk u }

/-- The history a read at `user_id` would currently observe. -/
def effectiveHistory (m : HistMgr) (user_id : String) : List Msg :=
  match m.cache user_id with
  | some h => h
  | none => (m.disk user_id).getD []

/-! ## services/conversation_manager.py -/

/-- Python `str.upper()` restricted like `pyLower`. -/
def pyUpper (c : Char) : Char :=
  if 'a' ≤ c ∧ c ≤ 'z' then Char.ofNat (c.toNat - 32)
  else if c = 'á' ∨ c = 'à' ∨ c = 'â' ∨ c = 'ã' ∨ c = 'ä' ∨
          c = 'é' ∨ c = 'è' ∨ c = 'ê' ∨ c = 'ë' ∨
          c = 'í' ∨ c = 'ì' ∨ c = 'î' ∨ c = 'ï' ∨
          c = 'ó' ∨ c = 'ò' ∨ c = 'ô' ∨ c = 'õ' ∨ c = 'ö' ∨
          c = 'ú' ∨ c = 'ù' ∨ c = 'û' ∨ c = 'ü' ∨ c = 'ç' ∨ c = 'ñ' then
    Char.ofNat (c.toNat - 32)
  else c

/-- Python `str.upper()` on a whole string. -/
def pyUpperS (s : String) : String := String.mk (s.data.map pyUpper)

/-- Rendering of a possibly-`None` value inside an f-string. -/
def pyOptStr : Option String → String
  | some s => s
  | none => "None"

/-- `_get_user_id`: the part of the number before "@", or the whole number. -/
def _get_user_id (numero : String) : String :=
  if numero.data.contains '@' then String.mk (numero.data.takeWhile (fun c => c ≠ '@'))
  else numero

/-- The greetings list of `_should_restart_conversation`. -/
def saudacoes : List String :=
  ["oi", "olá", "ola", "bom dia", "boa tarde", "boa noite", "hey", "ei"]

/-- `_should_restart_conversation`: in the "personalizado" phase, a bare
greeting with an empty history restarts the conversation.  The history list is
the full stored history of the user (`get_history(user_id)`). -/
def _should_restart_conversation (state : UserState) (user_message : String)
    (history : List Msg) : Bool :=
  let mensagem_lower := stripS (pyLowerS user_message)
  if state.fase = "personalizado" ∧ saudacoes.contains mensagem_lower then history.isEmpty
  else false

/-- Results of the external calls a turn can make, passed in as parameters
(the theorems quantify over them): the name/age found by
`detect_name_and_age` (`none` also covers falsy values), the completion reply
of the dynamic exercise generator (`none`: client absent or the call raised),
of the friendly-feedback call and of the decision classifier (`none`: the call
raised), and of the personalised-phase completion (`none`: the call raised). -/
structure ExtCalls where
  detect_nome : Option String
  detect_idade : Option Int
  dyn_content : Option String
  feedback_content : Option String
  decision_content : Option String
  personalized_content : Option String

/-- Output of one phase handler: the reply text, the mutated state, and the
number of `save_user_state` calls performed on the handler's path. -/
structure HandlerOut where
  resposta : String
  state : UserState
  saves : Nat

/-- `_handle_initial_phase` (one `save_user_state` call, line 237). -/
def _handle_initial_phase (state : UserState) : HandlerOut :=
  { resposta := "Oi! Eu sou a Apo.IA, sua assistente para te ajudar a aprender a ler e escrever de um jeito fácil e divertido!\n\nEu vou te acompanhar passo a passo, ok? 😊\n\nPra começar, me conta seu nome e sua idade, por favor."
    state := { state with fase := "aguardando_nome" }
    saves := 1 }

/-- `_handle_name_collection_phase` (exactly one `save_user_state` call on
every branch: line 268 or line 280). -/
def _handle_name_collection_phase (ext : ExtCalls) (state : UserState) : HandlerOut :=
  let state1 := if ext.detect_nome.isSome ∧ state.nome = none
                then { state with nome := ext.detect_nome } else state
  let state2 := if ext.detect_idade.isSome ∧ state1.idade = none
                then { state1 with idade := ext.detect_idade } else state1
  if state2.nome.isSome ∧ state2.idade.isSome then
    { resposta := "Muito legal te conhecer, " ++ pyOptStr state2.nome ++ "! 🤗\n\nAgora eu quero ver como você lê essas palavras.\n\nVou enviar uma imagem com algumas palavras pra você. Depois, diga ou escreva quais palavras você vê na imagem, tá bom?"
      state := { state2 with
                 fase := "solicitar_teste_leitura",
                 palavras_teste := get_test_words "basico" }
      saves := 1 }
  else if state2.nome.isSome then
    { resposta := "Legal, " ++ pyOptStr state2.nome ++ "! E quantos anos você tem?"
      state := state2, saves := 1 }
  else if state2.idade.isSome then
    { resposta := "Você tem " ++ (match state2.idade with
                                  | some i => toString i
                                  | none => "None") ++ " anos, que legal! E qual é o seu nome?"
      state := state2, saves := 1 }
  else
    { resposta := "Me conta seu nome e sua idade, por favor. Pode ser assim: " ++
        String.mk [aposC] ++ "Meu nome é João e tenho 25 anos" ++ String.mk [aposC] ++ " 😊"
      state := state2, saves := 1 }

/-- `_handle_test_request_phase`: no state change and no `save_user_state`
call (the phase is advanced by `should_generate_test_image`, not here). -/
def _handle_test_request_phase (state : UserState) : HandlerOut :=
  { resposta := "Agora eu quero ver como você lê essas palavras. Vou enviar uma imagem com algumas palavras pra você. Depois, diga ou escreva quais palavras você vê na imagem, tá bom? 😊"
    state := state
    saves := 0 }

/-- `_handle_test_evaluation_phase` (one `save_user_state` call, line 316):
score the reply against the stored test words, store level/correct/total,
force the level to "avançado" on 4 or more correct answers, reset the
exercise counter to 1 and move to the reading-exercises phase. -/
def _handle_test_evaluation_phase (state : UserState) (user_message : String) : HandlerOut :=
  let resultado := analyze_reading_level user_message state.palavras_teste
  let state1 := { state with
                  nivel_alfabetizacao := some resultado.nivel,
                  acertos := (resultado.acertos : Int),
                  total_testes := (resultado.total : Int) }
  let state2 := if 4 ≤ resultado.acertos
                then { state1 with nivel_alfabetizacao := some "avançado" } else state1
  let state3 := { state2 with exercicio_numero := some 1, fase := "exercicios_leitura" }
  { resposta := "Muito bem, " ++ pyOptStr state3.nome ++ "! 👏\n\nVocê acertou " ++
      toString resultado.acertos ++ " de " ++ toString resultado.total ++
      " palavras!\n\nSeu nível é: " ++ pyUpperS (state3.nivel_alfabetizacao.getD "") ++
      " (ajustado para enviar um texto simples)\n\nAgora vamos praticar leitura em voz alta! 📚\n\nVou te enviar um texto bem simples. Você vai:\n1️⃣ Ver o texto escrito (imagem)\n2️⃣ Ouvir eu lendo o texto (áudio)\n3️⃣ Tentar ler o texto em voz alta\n\nDepois eu vou te dar um retorno sobre como você leu! 😊\n\nPronto para começar?"
    state := state3
    saves := 1 }

/-- `_handle_reading_exercises_phase` (one `save_user_state` call, line 359):
generate the exercise (dynamic with static fallback; a falsy generated text
would raise and fall back too), store passage and title, and await audio. -/
def _handle_reading_exercises_phase (ext : ExtCalls) (state : UserState) : HandlerOut :=
  let exercicio_num := state.exercicio_numero.getD 1
  let texto_info := generate_dynamic_reading_challenge ext.dyn_content
    state.nivel_alfabetizacao exercicio_num
  let texto_info := if texto_info.texto = ""
                    then get_reading_text state.nivel_alfabetizacao exercicio_num
                    else texto_info
  let state1 := { state with
                  texto_atual := some texto_info.texto,
                  texto_titulo := some texto_info.titulo,
                  fase := "aguardando_leitura_audio" }
  { resposta := "📚 Exercício de Leitura #" ++ toString exercicio_num ++ "\n\nTítulo: " ++
      String.mk [quoteC] ++ texto_info.titulo ++ String.mk [quoteC] ++
      "\n\nVou te enviar o texto agora! Primeiro, veja o texto e ouça eu lendo. Depois, você tenta ler em voz alta, tá bom? 😊\n\n(O texto e o áudio serão enviados a seguir)"
    state := state1
    saves := 1 }

/-- The banned-word scrub list of `_generate_friendly_feedback`. -/
def banList : List String :=
  ["análise", "analise", "estatística", "porcentagem", "dados", "%"]

/-- Python `s.replace(sub, "")` (non-overlapping, left to right); the fuel is
the length of the scanned list. -/
def removeSubAll (sub : List Char) : Nat → List Char → List Char
  | 0, l => l
  | _ + 1, [] => []
  | f + 1, c :: cs =>
    if sub ≠ [] ∧ sub.isPrefixOf (c :: cs) then removeSubAll sub f ((c :: cs).drop sub.length)
    else c :: removeSubAll sub f cs

/-- Python `s.replace(sub, "")`. -/
def pyReplaceRemove (s : String) (sub : String) : String :=
  String.mk (removeSubAll sub.data s.data.length s.data)

/-- `_generate_friendly_feedback`: the completion reply with the banned words
removed and stripped, or the canned fallback when the call raised. -/
def _generate_friendly_feedback (ext : ExtCalls) : String :=
  match ext.feedback_content with
  | none => "Você foi muito bem! Vamos continuar treinando juntos. Eu acredito em você!"
  | some content => stripS (banList.foldl (fun acc b => pyReplaceRemove acc b) content)

/-- `_handle_reading_evaluation_phase` (one `save_user_state` call, line 395):
score the read-aloud attempt, emit the friendly feedback plus the decision
prompt, and await the post-feedback decision. -/
def _handle_reading_evaluation_phase (ext : ExtCalls) (state : UserState)
    (user_message : String) : HandlerOut :=
  let texto_esperado := state.texto_atual.getD ""
  let _resultado := analyze_reading_attempt texto_esperado user_message
  let feedback := _generate_friendly_feedback ext
  { resposta := feedback ++ "\n\nO que você quer fazer agora? Diga: ajuda ou outro exercício."
    state := { state with fase := "aguardando_decisao_pos_feedback" }
    saves := 1 }

/-- `_proximo_nivel` of conversation_manager.py. -/
def _proximo_nivel (n : Option String) : String :=
  let base := match n with
              | none => "iniciante"
              | some s => if s = "" then "iniciante" else s
  let nl := pyLowerS base
  if "avanc".data.isPrefixOf nl.data then "avançado"
  else if "inter".data.isPrefixOf nl.data then "avançado"
  else "intermediário"

/-- Result of `_decide_next_action`. -/
structure DecisionOut where
  action : String
  increase_level : Option Bool
deriving Repr, DecidableEq

/-- The parse-and-sanitize step of `_decide_next_action`, applied to the
(possibly failed) result of `json.loads`: a failed parse or a non-dict value
(whose `.get` raises) collapses to the default; the action string is
`str(...).strip().lower()` checked against the allowed set; `increase_level`
must be a bool.  `flen` feeds the `str()` rendering fuel. -/
def decideFromParsed (flen : Nat) : Option Json → DecisionOut
  | some (.obj kvs) =>
    let action0 := pyStrF flen ((jget kvs "action").getD (.str "unknown"))
    let action1 := pyLowerS (stripS action0)
    let action := if action1 = "help" ∨ action1 = "exercise" ∨ action1 = "unknown"
                  then action1 else "unknown"
    let increase := match jget kvs "increase_level" with
                    | some (.bool b) => some b
                    | _ => none
    { action := action, increase_level := increase }
  | _ => { action := "unknown", increase_level := none }

/-- `_decide_next_action` of conversation_manager.py: the completion reply is
parsed with a plain `json.loads` (every failure, including a completion-call
exception, collapses to `{action: "unknown", increase_level: None}`). -/
def _decide_next_action (decision_content : Option String) : DecisionOut :=
  match decision_content with
  | none => { action := "unknown", increase_level := none }
  | some content => decideFromParsed content.length (parseJson content)

/-- The lenient variant the spec describes (modelled from the spec's words):
first isolate the first well-formed structured block with `_extract_json`,
then parse and sanitize identically.  To be compared with
`_decide_next_action`. -/
def decide_next_action_lenient (content : String) : DecisionOut :=
  decideFromParsed content.length (parseJson (_extract_json content))

/-- `_handle_post_feedback_decision`: "help" moves to the personalised phase
(one save, line 454); "exercise" optionally bumps the level, increments the
exercise counter, saves (line 468) and synchronously runs the
reading-exercises handler (which saves again); anything else asks a
clarifying question with no state change and no save. -/
def _handle_post_feedback_decision (ext : ExtCalls) (state : UserState) : HandlerOut :=
  let decision := _decide_next_action ext.decision_content
  if decision.action = "help" then
    { resposta := "Vamos para o modo de ajuda. Pode me dizer o que você quer aprender agora. 😊"
      state := { state with fase := "personalizado" }
      saves := 1 }
  else if decision.action = "exercise" then
    let state1 := match decision.increase_level with
                  | some true => { state with
                      nivel_alfabetizacao := some (_proximo_nivel state.nivel_alfabetizacao) }
                  | _ => state
    let state2 := { state1 with
                    fase := "exercicios_leitura",
                    exercicio_numero := some (state1.exercicio_numero.getD 1 + 1) }
    let inner := _handle_reading_exercises_phase ext state2
    { resposta := inner.resposta, state := inner.state, saves := 1 + inner.saves }
  else
    { resposta := "Não entendi. Prefere ajuda ou outro exercício?"
      state := state
      saves := 0 }

/-- `_handle_personalized_phase`: the completion reply, or the apologetic
fallback (which renders a `None` name as Python does); no state change, no
`save_user_state` call. -/
def _handle_personalized_phase (ext : ExtCalls) (state : UserState) : HandlerOut :=
  match ext.personalized_content with
  | some content => { resposta := content, state := state, saves := 0 }
  | none =>
    { resposta := "Desculpa, " ++ pyOptStr state.nome ++ "! Tive um probleminha aqui. Pode repetir? 😊"
      state := state
      saves := 0 }

/-- `_route_by_phase`: the phase dispatch chain of conversation_manager.py
(any unknown phase falls through to the personalised handler). -/
def _route_by_phase (ext : ExtCalls) (state : UserState) (user_message : String) : HandlerOut :=
  if state.fase = "inicial" then _handle_initial_phase state
  else if state.fase = "aguardando_nome" then _handle_name_collection_phase ext state
  else if state.fase = "solicitar_teste_leitura" then _handle_test_request_phase state
  else if state.fase = "aguardando_teste_leitura" then
    _handle_test_evaluation_phase state user_message
  else if state.fase = "exercicios_leitura" then _handle_reading_exercises_phase ext state
  else if state.fase = "aguardando_leitura_audio" then
    _handle_reading_evaluation_phase ext state user_message
  else if state.fase = "aguardando_decisao_pos_feedback" then
    _handle_post_feedback_decision ext state
  else _handle_personalized_phase ext state

/-- Result of one `generate_response` turn: the reply, the final state, the
final history stores, and the instrumented count of `save_user_state` calls. -/
structure TurnOut where
  resposta : String
  state : UserState
  hist : HistMgr
  saves : Nat

/-- `generate_response` of conversation_manager.py: resolve the user id, read
the state (with the expiry and initial-phase rules of `get_user_state`),
apply the restart heuristic (which itself saves the reset default state,
line 168), append the inbound message to the history, dispatch to the phase
handler, append the reply to the history. -/
def generate_response (ext : ExtCalls) (sm : StateMgr) (hm : HistMgr)
    (numero user_message : String) (now : Int) : TurnOut :=
  let user_id := _get_user_id numero
  let (state, _sm1) := get_user_state sm user_id now
  let (hist, hm1) := get_history hm user_id none
  let restart := _should_restart_conversation state user_message hist
  let state1 := if restart then _get_default_state now else state
  let saves0 := if restart then 1 else 0
  let hm2 := add_message hm1 user_id user_message true now
  let h := _route_by_phase ext state1 user_message
  let hm3 := add_message hm2 user_id h.resposta false now
  { resposta := h.resposta
    state := h.state
    hist := hm3
    saves := saves0 + h.saves }

/-! ## Auxiliary quantities for the analysis of find_longest_match

Used only in proofs: `rnp a pop i` is the length of the run of consecutive
non-popular positions of `a` ending at `i`, and `Mprev a pop i` the maximum of
`rnp` over the first `i` positions.  On a self-comparison these are exactly
the chain lengths the `j2len` dictionary of `find_longest_match` tracks on
the diagonal. -/

/-- Length of the non-popular run ending at position `i` (0 when `i` is out of
range or popular). -/
def rnp (a : List α) (pop : α → Bool) : Nat → Nat
  | 0 =>
    match a.get? 0 with
    | none => 0
    | some x => if pop x then 0 else 1
  | i + 1 =>
    match a.get? (i + 1) with
    | none => 0
    | some x => if pop x then 0 else rnp a pop i + 1

/-- Maximum of `rnp` over positions `< i`. -/
def Mprev (a : List α) (pop : α → Bool) : Nat → Nat
  | 0 => 0
  | i + 1 => max (Mprev a pop i) (rnp a pop i)

/-- The per-phase `save_user_state` counts of one `generate_response` turn,
read off the handlers (used to state the amended C6): a restart turn saves
twice (the restart reset, line 168, plus the initial handler's save);
otherwise the count depends on the phase read at the start of the turn, the
post-feedback phase branching on the decision classifier. -/
def savesSpec (ext : ExtCalls) (sm : StateMgr) (hm : HistMgr)
    (numero user_message : String) (now : Int) : Nat :=
  let state := (get_user_state sm (_get_user_id numero) now).1
  let hist := (get_history hm (_get_user_id numero) none).1
  if _should_restart_conversation state user_message hist then 2
  else if state.fase = "inicial" then 1
  else if state.fase = "aguardando_nome" then 1
  else if state.fase = "solicitar_teste_leitura" then 0
  else if state.fase = "aguardando_teste_leitura" then 1
  else if state.fase = "exercicios_leitura" then 1
  else if state.fase = "aguardando_leitura_audio" then 1
  else if state.fase = "aguardando_decisao_pos_feedback" then
    (if (_decide_next_action ext.decision_content).action = "help" then 1
     else if (_decide_next_action ext.decision_content).action = "exercise" then 2
     else 0)
  else 0

/-! ## Theorems -/

/-- The percentage field of `analyze_reading_level`, re-expressed through the
other fields (definitional). -/
theorem analyze_taxa_eq (s : String) (e : List String) :
    (analyze_reading_level s e).taxa_acerto =
      if 0 < e.length then (((analyze_reading_level s e).acertos : ℚ) / (e.length : ℚ)) * 100
      else 0 := rfl

/-- Claim C1, counterexample: on user utterance "casa casa casa" and expected
words `["CASA", "SOL"]`, word-list scoring returns `accuracy_pct = 150 > 100`
(each repetition of a correct word is counted again, so the claimed bound
`accuracy_pct <= 100` fails). -/
theorem C1_counterexample :
    (analyze_reading_level "casa casa casa" ["CASA", "SOL"]).taxa_acerto = 150 ∧
      ¬ (analyze_reading_level "casa casa casa" ["CASA", "SOL"]).taxa_acerto ≤ 100 := by
  have h : (analyze_reading_level "casa casa casa" ["CASA", "SOL"]).acertos = 3 := by decide
  rw [analyze_taxa_eq, h]
  norm_num

/-- Claim C1 (amended): if the normalized user tokens are pairwise distinct,
then `0 ≤ accuracy_pct ≤ 100`; if additionally the expected list is nonempty
and its normalized words are pairwise distinct, then `accuracy_pct = 100` iff
every normalized expected word appears among the normalized user tokens. -/
theorem C1_amended (user_response : String) (expected_words : List String)
    (hnd : (userTokens user_response).Nodup) :
    0 ≤ (analyze_reading_level user_response expected_words).taxa_acerto ∧
      (analyze_reading_level user_response expected_words).taxa_acerto ≤ 100 ∧
      (expected_words ≠ [] → (expected_words.map _normalize_word).Nodup →
        ((analyze_reading_level user_response expected_words).taxa_acerto = 100 ↔
          ∀ w ∈ expected_words, _normalize_word w ∈ userTokens user_response)) := by
  classical
  set T := userTokens user_response with hT
  set E := (expected_words.map _normalize_word).dedup with hE
  set F := T.filter (fun w => decide (w ∈ E)) with hF
  have hacc : (analyze_reading_level user_response expected_words).acertos = F.length := rfl
  have hFnd : F.Nodup := hnd.filter _
  have hFsubE : ∀ x ∈ F, x ∈ E := by
    intro x hx
    have h2 := (List.mem_filter.mp hx).2
    exact of_decide_eq_true h2
  have hsubF : F.toFinset ⊆ E.toFinset := by
    intro x hx
    exact List.mem_toFinset.mpr (hFsubE x (List.mem_toFinset.mp hx))
  have hFcard : F.length ≤ E.length := by
    have h1 : F.toFinset.card = F.length := List.toFinset_card_of_nodup hFnd
    have h3 := Finset.card_le_card hsubF
    have h4 : E.toFinset.card ≤ E.length := E.toFinset_card_le
    omega
  have hElen : E.length ≤ expected_words.length := by
    have h5 := (List.dedup_sublist (expected_words.map _normalize_word)).length_le
    simpa using h5
  have hat : F.length ≤ expected_words.length := le_trans hFcard hElen
  refine ⟨?_, ?_, ?_⟩
  · rw [analyze_taxa_eq]
    by_cases h : 0 < expected_words.length
    · rw [if_pos h]
      positivity
    · rw [if_neg h]
  · rw [analyze_taxa_eq]
    by_cases h : 0 < expected_words.length
    · rw [if_pos h, hacc]
      have ht : (0:ℚ) < (expected_words.length : ℚ) := by exact_mod_cast h
      have hd : ((F.length : ℚ)) / (expected_words.length : ℚ) ≤ 1 := by
        rw [div_le_one ht]
        exact_mod_cast hat
      calc ((F.length : ℚ)) / (expected_words.length : ℚ) * 100 ≤ 1 * 100 :=
            mul_le_mul_of_nonneg_right hd (by norm_num)
        _ = 100 := by norm_num
    · rw [if_neg h]
      norm_num
  · intro hne hEnd
    have hpos : 0 < expected_words.length := List.length_pos.mpr hne
    have hEeq : E = expected_words.map _normalize_word := List.dedup_eq_self.mpr hEnd
    have hElen2 : E.length = expected_words.length := by
      rw [hEeq, List.length_map]
    have hEnd' : E.Nodup := List.nodup_dedup _
    have htq : ((expected_words.length : ℚ)) ≠ 0 := by
      exact_mod_cast Nat.pos_iff_ne_zero.mp hpos
    rw [analyze_taxa_eq, if_pos hpos, hacc]
    have hiff : ((F.length : ℚ)) / (expected_words.length : ℚ) * 100 = 100 ↔
        F.length = expected_words.length := by
      constructor
      · intro h100
        have h1 : ((F.length : ℚ)) / (expected_words.length : ℚ) = 1 := by
          have h2 : ((F.length : ℚ)) / (expected_words.length : ℚ) * 100 = 1 * 100 := by
            rw [one_mul]
            exact h100
          exact mul_right_cancel₀ (by norm_num) h2
        have h2 : ((F.length : ℚ)) = (expected_words.length : ℚ) :=
          (div_eq_one_iff_eq htq).mp h1
        exact_mod_cast h2
      · intro heq
        rw [heq, div_self htq, one_mul]
    rw [hiff]
    constructor
    · intro haeq
      have hFt : F.toFinset.card = expected_words.length := by
        rw [List.toFinset_card_of_nodup hFnd]
        exact haeq
      have hEt : E.toFinset.card = expected_words.length := by
        rw [List.toFinset_card_of_nodup hEnd']
        exact hElen2
      have heq : F.toFinset = E.toFinset :=
        Finset.eq_of_subset_of_card_le hsubF (by omega)
      intro w hw
      have hwE : _normalize_word w ∈ E := by
        rw [hEeq]
        exact List.mem_map_of_mem _ hw
      have hwF : _normalize_word w ∈ F :=
        List.mem_toFinset.mp (heq ▸ List.mem_toFinset.mpr hwE)
      exact (List.mem_filter.mp hwF).1
    · intro hall
      have hsub2 : E.toFinset ⊆ F.toFinset := by
        intro x hx
        have hxE : x ∈ E := List.mem_toFinset.mp hx
        have hxmap : x ∈ expected_words.map _normalize_word := by
          rw [← hEeq]
          exact hxE
        rcases List.mem_map.mp hxmap with ⟨w, hw, rfl⟩
        have hxT : _normalize_word w ∈ T := hall w hw
        exact List.mem_toFinset.mpr
          (List.mem_filter.mpr ⟨hxT, decide_eq_true hxE⟩)
      have heq : F.toFinset = E.toFinset := Finset.Subset.antisymm hsubF hsub2
      calc F.length = F.toFinset.card := (List.toFinset_card_of_nodup hFnd).symm
        _ = E.toFinset.card := by rw [heq]
        _ = E.length := List.toFinset_card_of_nodup hEnd'
        _ = expected_words.length := hElen2

/-- Witness for C1 (amended) at expected words CASA SOL PATO BOLA and the
utterance "casa bola" (Scenario 2 of the spec). -/
theorem C1_witness :
    0 ≤ (analyze_reading_level "casa bola" ["CASA", "SOL", "PATO", "BOLA"]).taxa_acerto ∧
      (analyze_reading_level "casa bola" ["CASA", "SOL", "PATO", "BOLA"]).taxa_acerto ≤ 100 ∧
      ((analyze_reading_level "casa bola" ["CASA", "SOL", "PATO", "BOLA"]).taxa_acerto = 100 ↔
        ∀ w ∈ ["CASA", "SOL", "PATO", "BOLA"], _normalize_word w ∈ userTokens "casa bola") := by
  have h := C1_amended "casa bola" ["CASA", "SOL", "PATO", "BOLA"] (by decide)
  exact ⟨h.1, h.2.1, h.2.2 (by decide) (by decide)⟩

/-! ### Lemmas about Python word splitting and joining -/

/-- Scanning a run of non-whitespace characters accumulates them (reversed)
into the current word. -/
theorem wordsAux_append_nonws :
    ∀ (w : List Char), (∀ c ∈ w, wsChar c = false) →
      ∀ (acc l : List Char), wordsAux acc (w ++ l) = wordsAux (w.reverse ++ acc) l
  | [], _, acc, l => by simp
  | c :: w', h, acc, l => by
    have hc : wsChar c = false := h c (List.mem_cons_self c w')
    have hw' : ∀ d ∈ w', wsChar d = false := fun d hd => h d (List.mem_cons_of_mem c hd)
    simp only [List.cons_append, wordsAux, hc, Bool.false_eq_true, if_false, List.append_eq]
    rw [wordsAux_append_nonws w' hw' (c :: acc) l]
    simp

/-- A single nonempty whitespace-free chunk splits to itself. -/
theorem wordsCL_single (w : List Char) (hne : w ≠ []) (h : ∀ c ∈ w, wsChar c = false) :
    wordsCL w = [w] := by
  unfold wordsCL
  have h1 : wordsAux [] (w ++ []) = wordsAux (w.reverse ++ []) [] :=
    wordsAux_append_nonws w h [] []
  simp only [List.append_nil] at h1
  rw [h1]
  simp only [wordsAux]
  have h2 : w.reverse.isEmpty = false := by
    cases w with
    | nil => exact absurd rfl hne
    | cons a l => simp [List.isEmpty_iff]
  rw [h2]
  simp

/-- Splitting a space-joined list of nonempty whitespace-free words recovers
the list. -/
theorem wordsCL_join :
    ∀ (ws : List (List Char)),
      (∀ w ∈ ws, w ≠ [] ∧ ∀ c ∈ w, wsChar c = false) →
      wordsCL (joinWordsCL ws) = ws
  | [], _ => rfl
  | [w], h => by
    show wordsCL w = [w]
    exact wordsCL_single w (h w (by simp)).1 (h w (by simp)).2
  | w :: w2 :: rest, h => by
    have hw := h w (by simp)
    have hrest : ∀ v ∈ w2 :: rest, v ≠ [] ∧ ∀ c ∈ v, wsChar c = false :=
      fun v hv => h v (List.mem_cons_of_mem w hv)
    show wordsCL (w ++ ' ' :: joinWordsCL (w2 :: rest)) = w :: w2 :: rest
    unfold wordsCL
    rw [wordsAux_append_nonws w hw.2 [] (' ' :: joinWordsCL (w2 :: rest))]
    simp only [List.append_nil, wordsAux]
    have hsp : wsChar ' ' = true := by decide
    rw [hsp]
    have h2 : w.reverse.isEmpty = false := by
      cases w with
      | nil => exact absurd rfl hw.1
      | cons a l => simp [List.isEmpty_iff]
    simp only [h2, if_true, Bool.false_eq_true, if_false]
    rw [List.reverse_reverse]
    exact congrArg (w :: ·) (wordsCL_join (w2 :: rest) hrest)

/-- Every chunk produced by `wordsAux` is nonempty and whitespace-free
(provided the running accumulator is whitespace-free). -/
theorem wordsAux_mem :
    ∀ (l acc : List Char), (∀ c ∈ acc, wsChar c = false) →
      ∀ w ∈ wordsAux acc l, w ≠ [] ∧ ∀ c ∈ w, wsChar c = false
  | [], acc, hacc => by
    intro w hw
    cases acc with
    | nil => simp [wordsAux] at hw
    | cons a as =>
      simp only [wordsAux, List.isEmpty_cons, Bool.false_eq_true, if_false,
        List.mem_singleton] at hw
      subst hw
      refine ⟨by simp, ?_⟩
      intro c hc
      exact hacc c (List.mem_reverse.mp hc)
  | c :: cs, acc, hacc => by
    intro w hw
    by_cases hc : wsChar c
    · simp only [wordsAux, hc, if_true] at hw
      cases acc with
      | nil =>
        simp only [List.isEmpty_nil, if_true] at hw
        exact wordsAux_mem cs [] (by intro d hd; cases hd) w hw
      | cons a as =>
        simp only [List.isEmpty_cons, Bool.false_eq_true, if_false] at hw
        rcases List.mem_cons.mp hw with h1 | h1
        · subst h1
          refine ⟨by simp, ?_⟩
          intro d hd
          exact hacc d (List.mem_reverse.mp hd)
        · exact wordsAux_mem cs [] (by intro d hd; cases hd) w h1
    · simp only [wordsAux, hc, Bool.false_eq_true, if_false] at hw
      refine wordsAux_mem cs (c :: acc) ?_ w hw
      intro d hd
      rcases List.mem_cons.mp hd with h1 | h1
      · subst h1
        simpa using hc
      · exact hacc d h1

/-- Splitting is invariant under character maps that preserve the whitespace
classification and fix non-whitespace characters (such as
`replace("\n", " ")`). -/
theorem wordsAux_map (f : Char → Char)
    (hf : ∀ c, wsChar (f c) = wsChar c ∧ (wsChar c = false → f c = c)) :
    ∀ (l acc : List Char), wordsAux acc (l.map f) = wordsAux acc l
  | [], _ => rfl
  | c :: cs, acc => by
    simp only [List.map_cons, wordsAux, (hf c).1]
    by_cases hc : wsChar c
    · simp only [hc, if_true]
      by_cases he : acc.isEmpty
      · rw [if_pos he, if_pos he, wordsAux_map f hf cs []]
      · rw [if_neg he, if_neg he, wordsAux_map f hf cs []]
    · simp only [hc, Bool.false_eq_true, if_false]
      rw [(hf c).2 (by simpa using hc), wordsAux_map f hf cs (c :: acc)]

/-- `strip` is the identity on a list whose first and last characters are not
whitespace. -/
theorem stripCL_eq_self (l : List Char)
    (h1 : ∀ a, l.head? = some a → wsChar a = false)
    (h2 : ∀ a, l.getLast? = some a → wsChar a = false) :
    stripCL l = l := by
  unfold stripCL
  have e1 : l.dropWhile wsChar = l := by
    cases l with
    | nil => rfl
    | cons a t => exact List.dropWhile_cons_of_neg (by simp [h1 a rfl])
  rw [e1]
  have e2 : l.reverse.dropWhile wsChar = l.reverse := by
    cases hr : l.reverse with
    | nil => rfl
    | cons a t =>
      apply List.dropWhile_cons_of_neg
      have hl : l.getLast? = some a := by
        rw [← List.head?_reverse, hr]
        rfl
      simp [h2 a hl]
  rw [e2, List.reverse_reverse]

/-- A space-join starting with a nonempty word is nonempty. -/
theorem joinWordsCL_ne_nil (w : List Char) (ws : List (List Char)) (hw : w ≠ []) :
    joinWordsCL (w :: ws) ≠ [] := by
  cases ws with
  | nil => simpa [joinWordsCL] using hw
  | cons w2 rest =>
    show w ++ ' ' :: joinWordsCL (w2 :: rest) ≠ []
    simp

/-- The head of a space-join is the head of the first word. -/
theorem joinWordsCL_head? (w : List Char) (ws : List (List Char)) (hw : w ≠ []) :
    (joinWordsCL (w :: ws)).head? = w.head? := by
  cases ws with
  | nil => rfl
  | cons w2 rest =>
    show (w ++ ' ' :: joinWordsCL (w2 :: rest)).head? = w.head?
    exact List.head?_append_of_ne_nil _ hw

/-- The last character of a space-join of nonempty words is a character of one
of the words. -/
theorem joinWordsCL_getLast? :
    ∀ (ws : List (List Char)), (∀ w ∈ ws, w ≠ []) →
      ∀ a, (joinWordsCL ws).getLast? = some a → ∃ w ∈ ws, a ∈ w
  | [], _, a, h => by cases h
  | [w], _, a, h => ⟨w, by simp, List.mem_of_mem_getLast? h⟩
  | w :: w2 :: rest, hws, a, h => by
    have hJ : joinWordsCL (w2 :: rest) ≠ [] :=
      joinWordsCL_ne_nil w2 rest (hws w2 (by simp))
    rw [show joinWordsCL (w :: w2 :: rest) = w ++ ' ' :: joinWordsCL (w2 :: rest) from rfl,
      List.getLast?_append_of_ne_nil _ (by simp),
      show (' ' :: joinWordsCL (w2 :: rest)) = [' '] ++ joinWordsCL (w2 :: rest) from rfl,
      List.getLast?_append_of_ne_nil _ hJ] at h
    obtain ⟨w', hw', ha⟩ := joinWordsCL_getLast? (w2 :: rest)
      (fun v hv => hws v (List.mem_cons_of_mem w hv)) a h
    exact ⟨w', List.mem_cons_of_mem w hw', ha⟩

/-- Token count equals the length of the Python `split()` result. -/
theorem countWords_eq (s : String) : countWords s = (pySplitWs s).length := by
  simp [countWords, pySplitWs]

/-- Every token of a Python `split()` is nonempty and whitespace-free. -/
theorem pySplitWs_mem (s : String) :
    ∀ p ∈ pySplitWs s, p.data ≠ [] ∧ ∀ c ∈ p.data, wsChar c = false := by
  intro p hp
  rcases List.mem_map.mp hp with ⟨w, hw, rfl⟩
  exact wordsAux_mem s.data [] (by intro d hd; cases hd) w hw

/-- Replacing newlines by spaces does not change the token count. -/
theorem countWords_replaceNl (s : String) : countWords (replaceNlS s) = countWords s := by
  have hf : ∀ c : Char, wsChar (if c = '\n' then ' ' else c) = wsChar c ∧
      (wsChar c = false → (if c = '\n' then ' ' else c) = c) := by
    intro c
    by_cases hc : c = '\n'
    · subst hc
      exact ⟨by decide, fun h => absurd h (by decide)⟩
    · simp [hc]
  show (wordsAux [] (replaceNlCL s.data)).length = (wordsAux [] s.data).length
  unfold replaceNlCL
  rw [wordsAux_map _ hf s.data []]

/-- The token count of a space-join of nonempty whitespace-free tokens is the
number of tokens. -/
theorem countWords_join (l : List String)
    (h : ∀ p ∈ l, p.data ≠ [] ∧ ∀ c ∈ p.data, wsChar c = false) :
    countWords (pyJoinSp l) = l.length := by
  show (wordsCL (joinWordsCL (l.map String.data))).length = l.length
  rw [wordsCL_join (l.map String.data) ?_]
  · simp
  · intro w hw
    rcases List.mem_map.mp hw with ⟨p, hp, rfl⟩
    exact h p hp

/-- As `countWords_join`, with a final `strip()` (which is the identity
there). -/
theorem countWords_strip_join (l : List String) (hne : l ≠ [])
    (h : ∀ p ∈ l, p.data ≠ [] ∧ ∀ c ∈ p.data, wsChar c = false) :
    countWords (stripS (pyJoinSp l)) = l.length := by
  have hmapne : ∀ w ∈ l.map String.data, w ≠ [] := by
    intro w hw
    rcases List.mem_map.mp hw with ⟨p, hp, rfl⟩
    exact (h p hp).1
  have hstrip : stripCL (joinWordsCL (l.map String.data)) = joinWordsCL (l.map String.data) := by
    apply stripCL_eq_self
    · intro a ha
      cases l with
      | nil => exact absurd rfl hne
      | cons p rest =>
        rw [show (p :: rest).map String.data = p.data :: rest.map String.data from rfl,
          joinWordsCL_head? p.data _ (h p (by simp)).1] at ha
        exact (h p (by simp)).2 a (List.mem_of_mem_head? ha)
    · intro a ha
      obtain ⟨w, hw, haw⟩ := joinWordsCL_getLast? (l.map String.data) hmapne a ha
      rcases List.mem_map.mp hw with ⟨p, hp, rfl⟩
      exact (h p hp).2 a haw
  show (wordsCL (stripCL (joinWordsCL (l.map String.data)))).length = l.length
  rw [hstrip]
  exact countWords_join l h

/-- `normNivel` always lands in one of the three canonical levels. -/
theorem normNivel_mem (nivel : Option String) :
    normNivel nivel = "avançado" ∨ normNivel nivel = "intermediário" ∨
      normNivel nivel = "iniciante" := by
  unfold normNivel
  dsimp only
  split
  · exact Or.inl rfl
  · split
    · exact Or.inr (Or.inl rfl)
    · exact Or.inr (Or.inr rfl)

theorem levelShapeSpec_init (n : Nat) : levelShapeSpec "iniciante" n ↔ n = 1 := by
  unfold levelShapeSpec
  rw [if_pos rfl]

theorem levelShapeSpec_inter (n : Nat) : levelShapeSpec "intermediário" n ↔ 3 ≤ n ∧ n ≤ 6 := by
  unfold levelShapeSpec
  rw [if_neg (by decide), if_pos rfl]

theorem levelShapeSpec_avanc (n : Nat) : levelShapeSpec "avançado" n ↔ n ≤ 16 := by
  unfold levelShapeSpec
  rw [if_neg (by decide), if_neg (by decide), if_pos rfl]

/-- Claim C2, counterexample: the static fallback path does not satisfy the
beginner shape constraint — `get_reading_text("iniciante", 1)` returns a
passage of 18 tokens, not exactly one. -/
theorem C2_counterexample :
    countWords (get_reading_text (some "iniciante") 1).texto = 18 ∧
      countWords (get_reading_text (some "iniciante") 1).texto ≠ 1 := by decide

/-- Claim C2 (amended): the level shape constraints hold on the
dynamic-generation path after its coercions — for every level string and
every model-produced text, the coerced text of
`generate_dynamic_reading_challenge` has exactly one token for beginner,
3 to 6 tokens for intermediate, and at most 16 tokens for advanced.  (The
static fallback `get_reading_text` does not satisfy them.) -/
theorem C2_amended (nivel : Option String) (texto : String) :
    levelShapeSpec (normNivel nivel) (countWords (coerce_texto (normNivel nivel) texto)) := by
  rcases normNivel_mem nivel with h | h | h <;> rw [h]
  · -- avançado
    rw [levelShapeSpec_avanc]
    unfold coerce_texto
    rw [if_neg (by decide), if_neg (by decide)]
    dsimp only
    by_cases h0 : (pySplitWs (replaceNlS texto)).length = 0
    · rw [if_pos h0]
      decide
    · by_cases h16 : (pySplitWs (replaceNlS texto)).length > 16
      · rw [if_neg h0, if_pos h16]
        rw [countWords_strip_join _ ?_ ?_]
        · rw [List.length_take]
          exact Nat.min_le_left _ _
        · intro htake
          have hlen := congrArg List.length htake
          rw [List.length_take, Nat.min_eq_left (by omega)] at hlen
          simp at hlen
        · intro p hp
          exact pySplitWs_mem _ p (List.mem_of_mem_take hp)
      · rw [if_neg h0, if_neg h16]
        have h1 := countWords_replaceNl texto
        have h2 := countWords_eq (replaceNlS texto)
        omega
  · -- intermediário
    rw [levelShapeSpec_inter]
    unfold coerce_texto
    rw [if_neg (by decide), if_pos rfl]
    dsimp only
    by_cases h3 : (pySplitWs (replaceNlS texto)).length < 3
    · rw [if_pos h3]
      rw [countWords_join _ ?_]
      · rw [List.length_take, List.length_append,
          Nat.min_eq_left (by simp)]
        omega
      · intro p hp
        rcases List.mem_append.mp (List.mem_of_mem_take hp) with h1 | h1
        · exact pySplitWs_mem _ p h1
        · simp only [List.mem_cons, List.not_mem_nil, or_false] at h1
          rcases h1 with rfl | rfl | rfl <;> exact ⟨by decide, by decide⟩
    · by_cases h6 : (pySplitWs (replaceNlS texto)).length > 6
      · rw [if_neg h3, if_pos h6]
        rw [countWords_join _ ?_]
        · rw [List.length_take, Nat.min_eq_left (by omega)]
          omega
        · intro p hp
          exact pySplitWs_mem _ p (List.mem_of_mem_take hp)
      · rw [if_neg h3, if_neg h6]
        rw [countWords_join _ (pySplitWs_mem _)]
        omega
  · -- iniciante
    rw [levelShapeSpec_init]
    unfold coerce_texto
    rw [if_pos rfl]
    dsimp only
    by_cases hp : (pySplitWs (stripS (replaceNlS texto))).length = 1
    · rw [if_neg (not_not_intro hp)]
      rw [countWords_eq]
      exact hp
    · rw [if_pos hp]
      cases hpar : pySplitWs (stripS (replaceNlS texto)) with
      | nil => decide
      | cons p rest =>
        have hprops := pySplitWs_mem (stripS (replaceNlS texto)) p (by rw [hpar]; simp)
        show countWords p = 1
        show (wordsCL p.data).length = 1
        rw [wordsCL_single p.data hprops.1 hprops.2]
        rfl

/-! ### find_longest_match on a self-comparison -/

section DiffLibProofs

set_option linter.unusedSectionVars false

variable {α : Type} [DecidableEq α]

theorem bjunkAt_false (b : List α) (j : Nat) : bjunkAt b j = false := by
  unfold bjunkAt bjunk
  cases b.get? j <;> rfl

theorem agree_self (a : List α) (i : Nat) (hi : i < a.length) : agree a a i i = true := by
  unfold agree
  rcases List.get?_eq_get hi with h
  rw [h]
  simp

theorem mem_b2jF (a : List α) (pop : α → Bool) (x : α) (j : Nat) :
    j ∈ b2jF a pop x ↔ pop x = false ∧ j < a.length ∧ a.get? j = some x := by
  unfold b2jF
  by_cases hp : pop x
  · simp [hp]
  · simp only [hp, Bool.false_eq_true, if_false, List.mem_filter, List.mem_range,
      decide_eq_true_eq]
    tauto

theorem b2jF_pairwise (a : List α) (pop : α → Bool) (x : α) :
    List.Pairwise (· < ·) (b2jF a pop x) := by
  unfold b2jF
  by_cases hp : pop x
  · simp [hp]
  · simp only [hp, Bool.false_eq_true, if_false]
    exact (List.pairwise_lt_range a.length).filter _

theorem rnp_le (a : List α) (pop : α → Bool) : ∀ i, rnp a pop i ≤ i + 1
  | 0 => by
    unfold rnp
    cases a.get? 0 with
    | none => exact Nat.zero_le _
    | some x =>
      by_cases hp : pop x
      · simp [hp]
      · simp [hp]
  | i + 1 => by
    unfold rnp
    cases a.get? (i + 1) with
    | none => exact Nat.zero_le _
    | some x =>
      by_cases hp : pop x
      · simp [hp]
      · simp only [hp, Bool.false_eq_true, if_false]
        have := rnp_le a pop i
        omega

theorem rnp_of_get_zero (a : List α) (pop : α → Bool) (x : α)
    (hx : a.get? 0 = some x) (hp : pop x = false) : rnp a pop 0 = 1 := by
  unfold rnp
  rw [hx]
  simp [hp]

theorem rnp_of_get_succ (a : List α) (pop : α → Bool) (x : α) (j : Nat)
    (hx : a.get? (j + 1) = some x) (hp : pop x = false) :
    rnp a pop (j + 1) = rnp a pop j + 1 := by
  show (match a.get? (j + 1) with
        | none => 0
        | some x => if pop x then 0 else rnp a pop j + 1) = rnp a pop j + 1
  rw [hx]
  simp [hp]

theorem rnp_of_pop (a : List α) (pop : α → Bool) (x : α) (i : Nat)
    (hx : a.get? i = some x) (hp : pop x = true) : rnp a pop i = 0 := by
  cases i with
  | zero =>
    unfold rnp
    rw [hx]
    simp [hp]
  | succ j =>
    unfold rnp
    rw [hx]
    simp [hp]

theorem rnp_le_Mprev (a : List α) (pop : α → Bool) :
    ∀ i j, j < i → rnp a pop j ≤ Mprev a pop i
  | 0, j, h => absurd h (Nat.not_lt_zero j)
  | i + 1, j, h => by
    unfold Mprev
    rcases Nat.lt_succ_iff_lt_or_eq.mp h with h1 | h1
    · exact le_trans (rnp_le_Mprev a pop i j h1) (le_max_left _ _)
    · subst h1
      exact le_max_right _ _

theorem Mprev_le_succ (a : List α) (pop : α → Bool) (i : Nat) :
    Mprev a pop i ≤ Mprev a pop (i + 1) := le_max_left _ _

/-- Invariant of the inner `for j` loop of `find_longest_match` on a
self-comparison over the full window: the previous row's dictionary `d` is
bounded by the non-popular run lengths (`hdP`), strictly below the current
diagonal run (`hdI`), and exact on the diagonal (`hdD`).  Then the new row is
bounded and exact on the diagonal, and the best match stays on the diagonal
with size exactly the running maximum of the diagonal runs. -/
theorem flmInner_go (a : List α) (pop : α → Bool) (i : Nat) (x : α)
    (hx : a.get? i = some x) (hpx : pop x = false)
    (d : Nat → Nat)
    (hdP : ∀ j, d j ≤ rnp a pop j)
    (hdI : ∀ j, d j + 1 ≤ rnp a pop i)
    (hdD : (if i = 0 then 0 else d (i - 1)) + 1 = rnp a pop i) :
    ∀ (js : List Nat), List.Pairwise (· < ·) js →
      (∀ j ∈ js, j < a.length ∧ a.get? j = some x) →
      ∀ (nd : Nat → Nat) (best : FlmBest),
        (∀ j, nd j ≤ rnp a pop j ∧ nd j ≤ rnp a pop i) →
        (i ∈ js ∨ nd i = rnp a pop i) →
        best.besti = best.bestj →
        Mprev a pop i ≤ best.bestsize →
        best.bestsize ≤ Mprev a pop (i + 1) →
        best.besti + best.bestsize ≤ i + 1 →
        (i ∈ js ∨ rnp a pop i ≤ best.bestsize) →
        ((flmInnerJ i 0 a.length d js nd best).1 i = rnp a pop i ∧
          (∀ j, (flmInnerJ i 0 a.length d js nd best).1 j ≤ rnp a pop j ∧
            (flmInnerJ i 0 a.length d js nd best).1 j ≤ rnp a pop i) ∧
          (flmInnerJ i 0 a.length d js nd best).2.besti =
            (flmInnerJ i 0 a.length d js nd best).2.bestj ∧
          (flmInnerJ i 0 a.length d js nd best).2.bestsize = Mprev a pop (i + 1) ∧
          (flmInnerJ i 0 a.length d js nd best).2.besti +
            (flmInnerJ i 0 a.length d js nd best).2.bestsize ≤ i + 1)
  | [], _, _, nd, best, hnd, hndI, hdiag, hm1, hm2, hpos, hbig => by
    simp only [flmInnerJ]
    have hi : nd i = rnp a pop i := by
      rcases hndI with h | h
      · cases h
      · exact h
    have hb : rnp a pop i ≤ best.bestsize := by
      rcases hbig with h | h
      · cases h
      · exact h
    refine ⟨hi, hnd, hdiag, ?_, hpos⟩
    refine le_antisymm hm2 ?_
    unfold Mprev
    exact max_le hm1 hb
  | j :: rest, hpw, hjs, nd, best, hnd, hndI, hdiag, hm1, hm2, hpos, hbig => by
    have hjlen : j < a.length := (hjs j (List.mem_cons_self j rest)).1
    have hjget : a.get? j = some x := (hjs j (List.mem_cons_self j rest)).2
    have hpw' : List.Pairwise (· < ·) rest := hpw.of_cons
    have hjlt : ∀ m ∈ rest, j < m := fun m hm => List.rel_of_pairwise_cons hpw hm
    simp only [flmInnerJ]
    rw [if_pos ⟨Nat.zero_le j, hjlen⟩]
    have hrnpi_pos : 1 ≤ rnp a pop i := by omega
    have hkP : (if j = 0 then 0 else d (j - 1)) + 1 ≤ rnp a pop j := by
      cases j with
      | zero =>
        rw [rnp_of_get_zero a pop x hjget hpx]
        simp
      | succ j' =>
        rw [rnp_of_get_succ a pop x j' hjget hpx]
        simpa using hdP j'
    have hkI : (if j = 0 then 0 else d (j - 1)) + 1 ≤ rnp a pop i := by
      cases j with
      | zero => simpa using hrnpi_pos
      | succ j' => simpa using hdI j'
    have hmemrest : ∀ m ∈ rest, m < a.length ∧ a.get? m = some x :=
      fun m hm => hjs m (List.mem_cons_of_mem j hm)
    have hndnew : ∀ m, (if m = j then (if j = 0 then 0 else d (j - 1)) + 1 else nd m) ≤
        rnp a pop m ∧
        (if m = j then (if j = 0 then 0 else d (j - 1)) + 1 else nd m) ≤ rnp a pop i := by
      intro m
      by_cases hmj : m = j
      · subst hmj
        rw [if_pos rfl]
        exact ⟨hkP, hkI⟩
      · rw [if_neg hmj]
        exact hnd m
    rcases Nat.lt_trichotomy j i with hji | hji | hji
    · -- j < i: the chain value cannot beat the running diagonal maximum
      have hkM : (if j = 0 then 0 else d (j - 1)) + 1 ≤ best.bestsize :=
        le_trans (le_trans hkP (rnp_le_Mprev a pop i j hji)) hm1
      have hnoup : ¬ best.bestsize < (if j = 0 then 0 else d (j - 1)) + 1 := by omega
      rw [if_neg hnoup]
      have hij : ¬ (i = j) := by omega
      have hrest1 : i ∈ rest ∨
          (if i = j then (if j = 0 then 0 else d (j - 1)) + 1 else nd i) = rnp a pop i := by
        rcases hndI with h | h
        · rcases List.mem_cons.mp h with h1 | h1
          · omega
          · exact Or.inl h1
        · right
          rw [if_neg hij]
          exact h
      have hrest2 : i ∈ rest ∨ rnp a pop i ≤ best.bestsize := by
        rcases hbig with h | h
        · rcases List.mem_cons.mp h with h1 | h1
          · omega
          · exact Or.inl h1
        · exact Or.inr h
      exact flmInner_go a pop i x hx hpx d hdP hdI hdD rest hpw' hmemrest _ best
        hndnew hrest1 hdiag hm1 hm2 hpos hrest2
    · -- j = i: the diagonal chain value is exactly rnp i
      subst hji
      have hkD : (if j = 0 then 0 else d (j - 1)) + 1 = rnp a pop j := hdD
      have hnd2 : j ∈ rest ∨
          (if j = j then (if j = 0 then 0 else d (j - 1)) + 1 else nd j) = rnp a pop j := by
        right
        rw [if_pos rfl]
        exact hkD
      by_cases hup : best.bestsize < (if j = 0 then 0 else d (j - 1)) + 1
      · rw [if_pos hup]
        have hkle : (if j = 0 then 0 else d (j - 1)) + 1 ≤ j + 1 := by
          have := rnp_le a pop j
          omega
        refine flmInner_go a pop j x hx hpx d hdP hdI hdD rest hpw' hmemrest _ _
          hndnew hnd2 rfl ?_ ?_ ?_ ?_
        · show Mprev a pop j ≤ (if j = 0 then 0 else d (j - 1)) + 1
          omega
        · show (if j = 0 then 0 else d (j - 1)) + 1 ≤ Mprev a pop (j + 1)
          rw [hkD]
          unfold Mprev
          exact le_max_right _ _
        · show j + 1 - ((if j = 0 then 0 else d (j - 1)) + 1) +
            ((if j = 0 then 0 else d (j - 1)) + 1) ≤ j + 1
          omega
        · right
          show rnp a pop j ≤ (if j = 0 then 0 else d (j - 1)) + 1
          omega
      · rw [if_neg hup]
        refine flmInner_go a pop j x hx hpx d hdP hdI hdD rest hpw' hmemrest _ best
          hndnew hnd2 hdiag hm1 hm2 hpos ?_
        right
        omega
    · -- i < j: the diagonal has already been processed, so no update
      have hbig' : rnp a pop i ≤ best.bestsize := by
        rcases hbig with h | h
        · rcases List.mem_cons.mp h with h1 | h1
          · omega
          · exact absurd (hjlt i h1) (by omega)
        · exact h
      have hnoup : ¬ best.bestsize < (if j = 0 then 0 else d (j - 1)) + 1 := by omega
      rw [if_neg hnoup]
      have hij : ¬ (i = j) := by omega
      have hrest1 : i ∈ rest ∨
          (if i = j then (if j = 0 then 0 else d (j - 1)) + 1 else nd i) = rnp a pop i := by
        rcases hndI with h | h
        · rcases List.mem_cons.mp h with h1 | h1
          · omega
          · exact absurd (hjlt i h1) (by omega)
        · right
          rw [if_neg hij]
          exact h
      exact flmInner_go a pop i x hx hpx d hdP hdI hdD rest hpw' hmemrest _ best
        hndnew hrest1 hdiag hm1 hm2 hpos (Or.inr hbig')

/-- One step of the row loop at a valid index. -/
theorem flmMain_step (a : List α) (getJs : α → List Nat) (blo bhi i cnt : Nat)
    (d : Nat → Nat) (best : FlmBest) (x : α) (hx : a.get? i = some x) :
    flmMain a getJs blo bhi i (cnt + 1) d best =
      flmMain a getJs blo bhi (i + 1) cnt
        (flmInnerJ i blo bhi d (getJs x) (fun _ => 0) best).1
        (flmInnerJ i blo bhi d (getJs x) (fun _ => 0) best).2 := by
  simp only [flmMain]
  rw [hx]

/-- The main row loop of `find_longest_match` on a self-comparison over the
full window keeps the best match on the diagonal, with size the maximum
non-popular run length, ending inside the sequence. -/
theorem flmMain_spec (a : List α) (pop : α → Bool) :
    ∀ (cnt i : Nat), i + cnt = a.length →
      ∀ (d : Nat → Nat) (best : FlmBest),
        (∀ j, d j ≤ rnp a pop j) →
        (∀ j, i = 0 → d j = 0) →
        (∀ j, 0 < i → d j ≤ rnp a pop (i - 1)) →
        (0 < i → d (i - 1) = rnp a pop (i - 1)) →
        best.besti = best.bestj →
        best.bestsize = Mprev a pop i →
        best.besti + best.bestsize ≤ i →
        ((flmMain a (b2jF a pop) 0 a.length i cnt d best).besti =
            (flmMain a (b2jF a pop) 0 a.length i cnt d best).bestj ∧
          (flmMain a (b2jF a pop) 0 a.length i cnt d best).bestsize =
            Mprev a pop a.length ∧
          (flmMain a (b2jF a pop) 0 a.length i cnt d best).besti +
            (flmMain a (b2jF a pop) 0 a.length i cnt d best).bestsize ≤ a.length)
  | 0, i, hcnt, d, best, _, _, _, _, hdiag, hsz, hpos => by
    simp only [flmMain]
    have : i = a.length := by omega
    subst this
    exact ⟨hdiag, hsz, hpos⟩
  | cnt + 1, i, hcnt, d, best, hdP, hdZ, hdPrev, hdD, hdiag, hsz, hpos => by
    have hi : i < a.length := by omega
    have hx : a.get? i = some (a.get ⟨i, hi⟩) := List.get?_eq_get hi
    set x := a.get ⟨i, hi⟩ with hxdef
    rw [flmMain_step a (b2jF a pop) 0 a.length i cnt d best x hx]
    by_cases hpx : pop x
    · -- popular row: b2j has no entries, the row dictionary stays empty
      have hjs : b2jF a pop x = [] := by
        unfold b2jF
        rw [if_pos hpx]
      rw [hjs]
      simp only [flmInnerJ]
      have hrnp0 : rnp a pop i = 0 := rnp_of_pop a pop x i hx hpx
      refine flmMain_spec a pop cnt (i + 1) (by omega) _ best
        (fun j => Nat.zero_le _) ?_ ?_ ?_ hdiag ?_ (by omega)
      · intro j h
        rfl
      · intro j _
        exact Nat.zero_le _
      · intro _
        simp only [Nat.add_sub_cancel]
        omega
      · rw [hsz]
        show Mprev a pop i = max (Mprev a pop i) (rnp a pop i)
        rw [hrnp0]
        simp
    · -- non-popular row: apply the inner loop invariant
      have hpx' : pop x = false := by simpa using hpx
      have hrnpi : rnp a pop i = (if i = 0 then 0 else rnp a pop (i - 1)) + 1 := by
        cases i with
        | zero =>
          rw [rnp_of_get_zero a pop x hx hpx']
          rfl
        | succ i' =>
          rw [rnp_of_get_succ a pop x i' hx hpx']
          simp
      have hdI : ∀ j, d j + 1 ≤ rnp a pop i := by
        intro j
        rcases Nat.eq_zero_or_pos i with h0 | h0
        · rw [hdZ j h0]
          omega
        · have := hdPrev j h0
          rw [hrnpi, if_neg (by omega)]
          omega
      have hdD' : (if i = 0 then 0 else d (i - 1)) + 1 = rnp a pop i := by
        rcases Nat.eq_zero_or_pos i with h0 | h0
        · subst h0
          rw [hrnpi]
          rfl
        · rw [if_neg (by omega), hrnpi, if_neg (by omega), hdD h0]
      have hmem : i ∈ b2jF a pop x := (mem_b2jF a pop x i).mpr ⟨hpx', hi, hx⟩
      have hprops := flmInner_go a pop i x hx hpx' d hdP hdI hdD'
        (b2jF a pop x) (b2jF_pairwise a pop x)
        (fun j hj => ⟨((mem_b2jF a pop x j).mp hj).2.1, ((mem_b2jF a pop x j).mp hj).2.2⟩)
        (fun _ => 0) best
        (fun j => ⟨Nat.zero_le _, Nat.zero_le _⟩)
        (Or.inl hmem) hdiag (le_of_eq hsz.symm)
        (by rw [hsz]; exact Mprev_le_succ a pop i) (by omega) (Or.inl hmem)
      obtain ⟨hnd_i, hnd_le, hdiag', hsz', hpos'⟩ := hprops
      refine flmMain_spec a pop cnt (i + 1) (by omega) _ _
        (fun j => (hnd_le j).1) ?_ ?_ ?_ hdiag' hsz' hpos'
      · intro j h
        exact absurd h (by omega)
      · intro j _
        simp only [Nat.add_sub_cancel]
        exact (hnd_le j).2
      · intro _
        simp only [Nat.add_sub_cancel]
        exact hnd_i

/-- On a self-comparison, the backward extension loop walks a diagonal match
back to the start of the window. -/
theorem extendBack_diag (a : List α) :
    ∀ (dg s fuel : Nat), dg ≤ fuel → dg + s ≤ a.length →
      extendBack a a 0 0 fuel ⟨dg, dg, s⟩ = ⟨0, 0, dg + s⟩
  | 0, s, 0, _, _ => by
    rw [Nat.zero_add]
    rfl
  | 0, s, fuel + 1, _, _ => by
    simp only [extendBack]
    rw [if_neg (by simp), Nat.zero_add]
  | dg + 1, s, 0, hf, _ => absurd hf (by omega)
  | dg + 1, s, fuel + 1, hf, hlen => by
    simp only [extendBack]
    rw [if_pos ?_]
    · have h1 : dg + 1 - 1 = dg := by omega
      rw [h1]
      have h2 := extendBack_diag a dg (s + 1) fuel (by omega) (by omega)
      rw [h2]
      congr 1
      omega
    · refine ⟨by omega, by omega, ?_, ?_⟩
      · have h1 : dg + 1 - 1 = dg := by omega
        rw [h1]
        exact bjunkAt_false a dg
      · have h1 : dg + 1 - 1 = dg := by omega
        rw [h1]
        exact agree_self a dg (by omega)

/-- On a self-comparison, the forward extension loop extends a diagonal match
starting at 0 to the whole sequence. -/
theorem extendFwd_diag (a : List α) :
    ∀ (fuel s : Nat), s ≤ a.length → a.length - s ≤ fuel →
      extendFwd a a a.length a.length fuel ⟨0, 0, s⟩ = ⟨0, 0, a.length⟩
  | 0, s, hs, hf => by
    have h : s = a.length := by omega
    subst h
    rfl
  | fuel + 1, s, hs, hf => by
    by_cases hlt : s < a.length
    · simp only [extendFwd]
      rw [if_pos ⟨by simpa using hlt, by simpa using hlt, by simpa using bjunkAt_false a s,
        by simpa using agree_self a s hlt⟩]
      exact extendFwd_diag a fuel (s + 1) (by omega) (by omega)
    · have h : s = a.length := by omega
      subst h
      simp only [extendFwd]
      rw [if_neg (by simp)]

/-- `find_longest_match` on a self-comparison over the full window returns
the whole diagonal. -/
theorem flm_self (a : List α) (pop : α → Bool) :
    find_longest_match a a pop 0 a.length 0 a.length = ⟨0, 0, a.length⟩ := by
  unfold find_longest_match
  have hm := flmMain_spec a pop (a.length - 0) 0 (by omega) (fun _ => 0) ⟨0, 0, 0⟩
    (fun j => Nat.zero_le _) (fun j _ => rfl) (fun j h => absurd h (by omega))
    (fun h => absurd h (by omega)) rfl rfl (by simp)
  rcases hflm : flmMain a (b2jF a pop) 0 a.length 0 (a.length - 0) (fun _ => 0) ⟨0, 0, 0⟩
    with ⟨bi, bj, bs⟩
  rw [hflm] at hm
  obtain ⟨hdiag, _, hpos⟩ := hm
  simp only at hdiag hpos
  subst hdiag
  show extendFwd a a a.length a.length (a.length + a.length)
    (extendBack a a 0 0 bi ⟨bi, bi, bs⟩) = ⟨0, 0, a.length⟩
  rw [extendBack_diag a bi bs bi (le_refl _) (by omega)]
  exact extendFwd_diag a (a.length + a.length) (bi + bs) (by omega) (by omega)

/-- The backward extension loop does nothing when `besti` is at the window
start. -/
theorem extendBack_stuck (a b : List α) (alo blo : Nat) (fuel : Nat) (best : FlmBest)
    (h : ¬ alo < best.besti) : extendBack a b alo blo fuel best = best := by
  cases fuel with
  | zero => rfl
  | succ f =>
    simp only [extendBack]
    rw [if_neg (by tauto)]

/-- The forward extension loop does nothing when the match already reaches
the window end. -/
theorem extendFwd_stuck (a b : List α) (ahi bhi : Nat) (fuel : Nat) (best : FlmBest)
    (h : ¬ best.besti + best.bestsize < ahi) : extendFwd a b ahi bhi fuel best = best := by
  cases fuel with
  | zero => rfl
  | succ f =>
    simp only [extendFwd]
    rw [if_neg (by tauto)]

/-- `find_longest_match` on an empty degenerate window finds nothing. -/
theorem flm_end_window (a b : List α) (pop : α → Bool) (p q : Nat) :
    find_longest_match a b pop p p q q = ⟨p, q, 0⟩ := by
  unfold find_longest_match
  have h0 : p - p = 0 := by omega
  rw [h0]
  simp only [flmMain]
  rw [extendBack_stuck a b p q _ ⟨p, q, 0⟩ (by simp)]
  exact extendFwd_stuck a b p q _ ⟨p, q, 0⟩ (by simp)

theorem gmbLoop_nil (a b : List α) (pop : α → Bool) (fuel : Nat)
    (acc : List (Nat × Nat × Nat)) : gmbLoop a b pop fuel [] acc = acc := by
  cases fuel <;> rfl

/-- The queue loop of `get_matching_blocks` on a nonempty self-comparison
finds the whole diagonal and then discards the two empty sub-windows. -/
theorem gmbLoop_self (a : List α) (pop : α → Bool) (hn : 0 < a.length) (f : Nat) :
    gmbLoop a a pop (f + 3) [(0, a.length, 0, a.length)] [] = [(0, 0, a.length)] := by
  show gmbLoop a a pop ((f + 2) + 1) [(0, a.length, 0, a.length)] [] = [(0, 0, a.length)]
  simp only [gmbLoop]
  rw [flm_self a pop]
  simp only [Nat.zero_add]
  rw [if_pos hn]
  show gmbLoop a a pop ((f + 1) + 1)
    [(a.length, a.length, a.length, a.length), (0, 0, 0, 0)] [(0, 0, a.length)] = _
  simp only [gmbLoop]
  rw [flm_end_window a a pop a.length a.length]
  rw [if_neg (by simp)]
  show gmbLoop a a pop (f + 1) [(0, 0, 0, 0)] [(0, 0, a.length)] = _
  simp only [gmbLoop]
  rw [flm_end_window a a pop 0 0]
  rw [if_neg (by simp)]
  exact gmbLoop_nil a a pop f [(0, 0, a.length)]

/-- `get_matching_blocks` on a nonempty self-comparison: one full-diagonal
block plus the sentinel. -/
theorem get_matching_blocks_self (a : List α) (h : a ≠ []) :
    get_matching_blocks a a = [(0, 0, a.length), (a.length, a.length, 0)] := by
  have hn : 0 < a.length := List.length_pos.mpr h
  show mergeAdjacent (0, 0, 0)
      (pySorted blockLe (gmbLoop a a (popularB a) (2 * (a.length + a.length) + 3)
        [(0, a.length, 0, a.length)] [])) ++ [(a.length, a.length, 0)] =
    [(0, 0, a.length), (a.length, a.length, 0)]
  rw [gmbLoop_self a (popularB a) hn (2 * (a.length + a.length))]
  have hsort : pySorted blockLe ([(0, 0, a.length)] : List (Nat × Nat × Nat)) =
      [(0, 0, a.length)] := rfl
  rw [hsort]
  simp [mergeAdjacent, hn]

/-- `SequenceMatcher.ratio` of a list against itself is 1. -/
theorem razaoSM_self (a : List α) : razaoSM a a = 1 := by
  by_cases h : a = []
  · subst h
    rfl
  · have hn : 0 < a.length := List.length_pos.mpr h
    unfold razaoSM
    rw [get_matching_blocks_self a h]
    rw [if_pos (by omega : 0 < a.length + a.length)]
    simp only [List.map_cons, List.map_nil, List.sum_cons, List.sum_nil]
    have hq : ((a.length : ℚ)) + ((a.length : ℚ)) ≠ 0 := by
      have : (0:ℚ) < (a.length : ℚ) := by exact_mod_cast hn
      positivity
    push_cast
    rw [div_eq_one_iff_eq hq]
    ring

/-- `get_opcodes` on a nonempty self-comparison is a single `equal` opcode. -/
theorem get_opcodes_self_ne (a : List α) (h : a ≠ []) :
    get_opcodes a a = [("equal", 0, a.length, 0, a.length)] := by
  have hn : 0 < a.length := List.length_pos.mpr h
  unfold get_opcodes
  rw [get_matching_blocks_self a h]
  simp [opcodesLoop, hn]

/-- The alignment of a list with itself contains no `replace` opcode. -/
theorem opcodes_self_no_replace (a : List α) :
    (get_opcodes a a).filter (fun op => op.1 == "replace") = [] := by
  by_cases h : a = []
  · subst h
    rfl
  · rw [get_opcodes_self_ne a h]
    rfl

/-- `_identificar_erros` of a token list against itself reports no errors. -/
theorem identificar_erros_self (l : List String) :
    _identificar_erros l l = ⟨[], [], []⟩ := by
  have h1 : l.dedup.filter (fun w => decide (w ∉ l.dedup)) = [] := by
    rw [List.filter_eq_nil_iff]
    intro a ha
    simp [ha]
  unfold _identificar_erros
  dsimp only
  rw [opcodes_self_no_replace l]
  simp [h1]

/-- Claim C8: passage scoring of any text against itself returns similarity
100.0, rating "excelente", and empty lists of substituted, missing and extra
words. -/
theorem C8_theorem (texto : String) :
    (analyze_reading_attempt texto texto).similaridade = 100 ∧
      (analyze_reading_attempt texto texto).avaliacao = "excelente" ∧
      (analyze_reading_attempt texto texto).erros.palavras_erradas = [] ∧
      (analyze_reading_attempt texto texto).erros.palavras_faltantes = [] ∧
      (analyze_reading_attempt texto texto).erros.palavras_extras = [] := by
  have hr := razaoSM_self (pySplitWs (_normalize_text texto))
  have he := identificar_erros_self (pySplitWs (_normalize_text texto))
  have herr : (analyze_reading_attempt texto texto).erros =
      _identificar_erros (pySplitWs (_normalize_text texto))
        (pySplitWs (_normalize_text texto)) := rfl
  refine ⟨?_, ?_, ?_, ?_, ?_⟩
  · rw [show (analyze_reading_attempt texto texto).similaridade =
        round1 (razaoSM (pySplitWs (_normalize_text texto))
          (pySplitWs (_normalize_text texto)) * 100) from rfl, hr]
    norm_num [round1, roundHalfEven]
  · have h : razaoSM (pySplitWs (_normalize_text texto))
        (pySplitWs (_normalize_text texto)) * 100 ≥ 90 := by
      rw [hr]
      norm_num
    unfold analyze_reading_attempt
    dsimp only
    rw [if_pos h]
  · rw [herr, he]
  · rw [herr, he]
  · rw [herr, he]

/-- Claim C9: `analyze_reading_attempt` can return a negative correct count:
on expected text "sol" and spoken text "gato" the single word is counted both
as a substitution and as missing, so `acertos = 1 - 1 - 1 = -1 < 0`. -/
theorem C9_theorem :
    (analyze_reading_attempt "sol" "gato").acertos = -1 ∧
      (analyze_reading_attempt "sol" "gato").acertos < 0 := by decide

/-- Claim C3: in the test-evaluation phase, a score of 4 or more correct
words forces the stored literacy level to "avançado" (whatever the
percentage classification said), and in every case the exercise counter is
reset to 1 and the phase becomes "exercicios_leitura". -/
theorem C3_theorem (state : UserState) (user_message : String) :
    (4 ≤ (analyze_reading_level user_message state.palavras_teste).acertos →
      (_handle_test_evaluation_phase state user_message).state.nivel_alfabetizacao =
        some "avançado") ∧
      (_handle_test_evaluation_phase state user_message).state.exercicio_numero = some 1 ∧
      (_handle_test_evaluation_phase state user_message).state.fase = "exercicios_leitura" := by
  unfold _handle_test_evaluation_phase
  dsimp only
  refine ⟨?_, ?_, ?_⟩
  · intro h
    rw [if_pos h]
  · rfl
  · rfl

/-- Witness for C3: a user who reads all four basic test words correctly
(4 of 4) ends up at level "avançado" with the exercise counter reset. -/
theorem C3_witness :
    4 ≤ (analyze_reading_level "casa sol pato bola"
        (UserState.palavras_teste ⟨"aguardando_teste_leitura", some "Ana", some 30, none,
          ["CASA", "SOL", "PATO", "BOLA"], 0, 0, some 0, none, none, none⟩)).acertos ∧
      (_handle_test_evaluation_phase ⟨"aguardando_teste_leitura", some "Ana", some 30, none,
          ["CASA", "SOL", "PATO", "BOLA"], 0, 0, some 0, none, none, none⟩
        "casa sol pato bola").state.nivel_alfabetizacao = some "avançado" ∧
      (_handle_test_evaluation_phase ⟨"aguardando_teste_leitura", some "Ana", some 30, none,
          ["CASA", "SOL", "PATO", "BOLA"], 0, 0, some 0, none, none, none⟩
        "casa sol pato bola").state.exercicio_numero = some 1 ∧
      (_handle_test_evaluation_phase ⟨"aguardando_teste_leitura", some "Ana", some 30, none,
          ["CASA", "SOL", "PATO", "BOLA"], 0, 0, some 0, none, none, none⟩
        "casa sol pato bola").state.fase = "exercicios_leitura" := by
  have h := C3_theorem ⟨"aguardando_teste_leitura", some "Ana", some 30, none,
    ["CASA", "SOL", "PATO", "BOLA"], 0, 0, some 0, none, none, none⟩ "casa sol pato bola"
  exact ⟨by decide, h.1 (by decide), h.2.1, h.2.2⟩

/-- Claim C4, counterexample: the expiry rule is not applied on every read —
a cached in-memory state whose `last_active_at` is more than 24 hours old is
returned as-is by `get_user_state`, not reset to the default state. -/
theorem C4_counterexample :
    _is_conversation_expired ⟨"personalizado", some "Ana", some 30, some "avançado",
        [], 4, 4, some 0, some 2, none, none⟩ 100000 = true ∧
      (get_user_state
        { cache := fun u => if u = "u1" then
            some ⟨"personalizado", some "Ana", some 30, some "avançado",
              [], 4, 4, some 0, some 2, none, none⟩ else none
          disk := fun _ => none } "u1" 100000).1 ≠ _get_default_state 100000 := by
  constructor
  · decide
  · decide

/-- Claim C4 (amended): the expiry reset applies on reads that load the
profile from disk (a cache miss): if the user is not cached and the on-disk
record is more than 24 hours old, `get_user_state` returns the default fresh
state. -/
theorem C4_amended (m : StateMgr) (user_id : String) (now : Int) (st : UserState)
    (hc : m.cache user_id = none) (hd : m.disk user_id = some st)
    (he : _is_conversation_expired st now = true) :
    (get_user_state m user_id now).1 = _get_default_state now := by
  unfold get_user_state _load_user_state
  dsimp only
  simp only [hc, hd, Option.isSome_none, Bool.false_eq_true, if_false, if_true, eq_self_iff_true,
    Option.getD_some]
  rw [if_pos he]
  rfl

/-- Witness for C4 (amended): an uncached user whose disk record is 100000
seconds old is reset to the default state on read. -/
theorem C4_witness :
    ({ cache := fun _ => none
       disk := fun u => if u = "u1" then
         some ⟨"personalizado", some "Ana", some 30, some "avançado",
           [], 4, 4, some 0, some 2, none, none⟩ else none } : StateMgr).cache "u1" = none ∧
      _is_conversation_expired ⟨"personalizado", some "Ana", some 30, some "avançado",
        [], 4, 4, some 0, some 2, none, none⟩ 100000 = true ∧
      (get_user_state
        { cache := fun _ => none
          disk := fun u => if u = "u1" then
            some ⟨"personalizado", some "Ana", some 30, some "avançado",
              [], 4, 4, some 0, some 2, none, none⟩ else none } "u1" 100000).1 =
        _get_default_state 100000 := by
  refine ⟨rfl, by decide, ?_⟩
  exact C4_amended _ "u1" 100000 ⟨"personalizado", some "Ana", some 30, some "avançado",
    [], 4, 4, some 0, some 2, none, none⟩ rfl (by simp) (by decide)

/-- Claim C5: any stored state (cached, or on disk for an uncached user)
whose phase is "inicial" reads back with cleared personal fields: no name, no
age, no literacy level, zero correct answers and zero total tests. -/
theorem C5_theorem (m : StateMgr) (user_id : String) (now : Int) (st : UserState)
    (hst : m.cache user_id = some st ∨ (m.cache user_id = none ∧ m.disk user_id = some st))
    (hfase : st.fase = "inicial") :
    (get_user_state m user_id now).1.nome = none ∧
      (get_user_state m user_id now).1.idade = none ∧
      (get_user_state m user_id now).1.nivel_alfabetizacao = none ∧
      (get_user_state m user_id now).1.acertos = 0 ∧
      (get_user_state m user_id now).1.total_testes = 0 := by
  unfold get_user_state _load_user_state
  dsimp only
  rcases hst with hc | ⟨hc, hd⟩
  · simp only [hc, Option.isSome_some, if_true, Option.getD_some]
    rw [if_pos hfase]
    simp [clearInitialFields]
  · simp only [hc, hd, Option.isSome_none, Bool.false_eq_true, if_false, if_true, eq_self_iff_true,
      Option.getD_some]
    by_cases he : _is_conversation_expired st now
    · rw [if_pos he]
      simp [clearInitialFields, _get_default_state]
    · rw [if_neg he]
      have h2 : ({ st with ultimo_acesso := some now } : UserState).fase = "inicial" := hfase
      rw [if_pos h2]
      simp [clearInitialFields]

/-- Witness for C5: a cached "inicial" state full of stale personal data
reads back cleared. -/
theorem C5_witness :
    ({ cache := fun u => if u = "u1" then
         some ⟨"inicial", some "Ana", some 30, some "avançado",
           ["CASA"], 3, 4, some 0, some 2, none, none⟩ else none
       disk := fun _ => none } : StateMgr).cache "u1" =
      some ⟨"inicial", some "Ana", some 30, some "avançado",
        ["CASA"], 3, 4, some 0, some 2, none, none⟩ ∧
      (get_user_state
        { cache := fun u => if u = "u1" then
            some ⟨"inicial", some "Ana", some 30, some "avançado",
              ["CASA"], 3, 4, some 0, some 2, none, none⟩ else none
          disk := fun _ => none } "u1" 50).1.nome = none ∧
      (get_user_state
        { cache := fun u => if u = "u1" then
            some ⟨"inicial", some "Ana", some 30, some "avançado",
              ["CASA"], 3, 4, some 0, some 2, none, none⟩ else none
          disk := fun _ => none } "u1" 50).1.acertos = 0 := by
  have h := C5_theorem
    { cache := fun u => if u = "u1" then
        some ⟨"inicial", some "Ana", some 30, some "avançado",
          ["CASA"], 3, 4, some 0, some 2, none, none⟩ else none
      disk := fun _ => none } "u1" 50
    ⟨"inicial", some "Ana", some 30, some "avançado", ["CASA"], 3, 4, some 0, some 2, none, none⟩
    (Or.inl (by simp)) rfl
  exact ⟨by simp, h.1, h.2.2.2.1⟩

/-- Claim C10: `get_history` with limit 0 returns the entire stored history
(the falsy limit is ignored), and with a positive limit N it returns the most
recent N messages (the suffix of the stored history) in insertion order. -/
theorem C10_theorem (m : HistMgr) (user_id : String) :
    (get_history m user_id (some 0)).1 = effectiveHistory m user_id ∧
      ∀ N : Int, 0 < N →
        (get_history m user_id (some N)).1 =
          (effectiveHistory m user_id).drop
            ((effectiveHistory m user_id).length - N.toNat) := by
  unfold get_history effectiveHistory _load_user_history
  dsimp only
  cases hc : m.cache user_id with
  | some h =>
    simp only [hc, Option.isSome_some, if_true, Option.getD_some]
    constructor
    · norm_num
    · intro N hN
      have hne : N ≠ 0 := by omega
      rw [if_pos hne]
      unfold pySliceFrom
      have hneg : ¬ (0 ≤ -N) := by omega
      rw [if_neg hneg, neg_neg]
  | none =>
    simp only [Option.isSome_none, Bool.false_eq_true, if_false, if_true, eq_self_iff_true,
      Option.getD_some]
    constructor
    · norm_num
    · intro N hN
      have hne : N ≠ 0 := by omega
      rw [if_pos hne]
      unfold pySliceFrom
      have hneg : ¬ (0 ≤ -N) := by omega
      rw [if_neg hneg, neg_neg]

/-- Witness for C10: on a three-message history, limit 0 yields all three
messages and limit 2 yields the newest two in order. -/
theorem C10_witness :
    (get_history
        { cache := fun u => if u = "u1" then
            some [⟨"user", "a", 0⟩, ⟨"assistant", "b", 1⟩, ⟨"user", "c", 2⟩] else none
          disk := fun _ => none } "u1" (some 0)).1 =
      [⟨"user", "a", 0⟩, ⟨"assistant", "b", 1⟩, ⟨"user", "c", 2⟩] ∧
      (0 : Int) < 2 ∧
      (get_history
        { cache := fun u => if u = "u1" then
            some [⟨"user", "a", 0⟩, ⟨"assistant", "b", 1⟩, ⟨"user", "c", 2⟩] else none
          disk := fun _ => none } "u1" (some 2)).1 =
      [⟨"assistant", "b", 1⟩, ⟨"user", "c", 2⟩] := by
  have h := C10_theorem
    { cache := fun u => if u = "u1" then
        some [⟨"user", "a", 0⟩, ⟨"assistant", "b", 1⟩, ⟨"user", "c", 2⟩] else none
      disk := fun _ => none } "u1"
  refine ⟨?_, by decide, ?_⟩
  · rw [h.1]
    decide
  · rw [h.2 2 (by decide)]
    decide

/-- Claim C7, counterexample: the decision classifier is not lenient — a
completion reply that wraps a well-formed JSON object in extra text ("Claro!
...") fails the strict `json.loads` and collapses to the default
`unknown` decision, whereas the lenient extract-first-block variant the spec
describes would return `help` with `increase_level = true`. -/
theorem C7_counterexample :
    _decide_next_action
        (some "Claro! \x7b\"action\": \"help\", \"increase_level\": true\x7d") =
      ⟨"unknown", none⟩ ∧
      decide_next_action_lenient
        "Claro! \x7b\"action\": \"help\", \"increase_level\": true\x7d" =
      ⟨"help", some true⟩ ∧
      _decide_next_action
        (some "Claro! \x7b\"action\": \"help\", \"increase_level\": true\x7d") ≠
      decide_next_action_lenient
        "Claro! \x7b\"action\": \"help\", \"increase_level\": true\x7d" := by
  refine ⟨by decide, by decide, by decide⟩

/-- Claim C7 (amended): the decision classifier never yields an action
outside \x7bhelp, exercise, unknown\x7d, and any completion reply that the
strict `json.loads` cannot parse (as well as a failed completion call)
collapses to the default `(unknown, none)` decision — so the caller never
sees an exception, but the fallback action is "unknown", not "unclear", and
the parse is strict rather than lenient. -/
theorem C7_amended (c : Option String) :
    ((_decide_next_action c).action = "help" ∨ (_decide_next_action c).action = "exercise" ∨
      (_decide_next_action c).action = "unknown") ∧
      ∀ s, c = some s → parseJson s = none →
        _decide_next_action c = ⟨"unknown", none⟩ := by
  constructor
  · cases c with
    | none => right; right; rfl
    | some content =>
      unfold _decide_next_action
      dsimp only
      rcases hp : parseJson content with _ | j
      · right; right; rfl
      · cases j with
        | obj kvs =>
          unfold decideFromParsed
          dsimp only
          by_cases h1 :
            pyLowerS (stripS (pyStrF content.length
              ((jget kvs "action").getD (Json.str "unknown")))) = "help" ∨
            pyLowerS (stripS (pyStrF content.length
              ((jget kvs "action").getD (Json.str "unknown")))) = "exercise" ∨
            pyLowerS (stripS (pyStrF content.length
              ((jget kvs "action").getD (Json.str "unknown")))) = "unknown"
          · rw [if_pos h1]
            exact h1
          · rw [if_neg h1]
            right; right; rfl
        | null => right; right; rfl
        | bool b => right; right; rfl
        | num n => right; right; rfl
        | str s => right; right; rfl
        | arr xs => right; right; rfl
  · intro s hs hp
    subst hs
    unfold _decide_next_action
    dsimp only
    rw [hp]
    rfl

/-- Witness for C7 (amended): a plain-text completion reply ("ok") is not
valid JSON and collapses to the default unknown decision, which is inside the
allowed action set. -/
theorem C7_witness :
    ((_decide_next_action (some "ok")).action = "help" ∨
      (_decide_next_action (some "ok")).action = "exercise" ∨
      (_decide_next_action (some "ok")).action = "unknown") ∧
      _decide_next_action (some "ok") = ⟨"unknown", none⟩ := by
  have h := C7_amended (some "ok")
  exact ⟨h.1, h.2 "ok" rfl rfl⟩

/-- Reading the history (whatever the limit) does not change what a later
read at the same user observes. -/
theorem effectiveHistory_get_history (m : HistMgr) (user_id : String) (limit : Option Int) :
    effectiveHistory (get_history m user_id limit).2 user_id = effectiveHistory m user_id := by
  unfold get_history effectiveHistory _load_user_history
  dsimp only
  cases hc : m.cache user_id with
  | some h => simp [hc]
  | none => simp [hc]

/-- `add_message` appends exactly one role-tagged message to the observed
history. -/
theorem effectiveHistory_add_message (m : HistMgr) (user_id message : String)
    (is_user : Bool) (now : Int) :
    effectiveHistory (add_message m user_id message is_user now) user_id =
      effectiveHistory m user_id ++
        [⟨if is_user then "user" else "assistant", message, now⟩] := by
  unfold add_message effectiveHistory _load_user_history
  dsimp only
  cases hc : m.cache user_id with
  | some h => simp [hc]
  | none => simp [hc]

/-- Claim C6, counterexample: a turn in the "solicitar_teste_leitura" phase
performs no `save_user_state` call at all (the handler advances nothing), so
a turn does not always make exactly one state write. -/
theorem C6_counterexample :
    (generate_response ⟨none, none, none, none, none, none⟩
        { cache := fun u => if u = "u1" then
            some ⟨"solicitar_teste_leitura", some "Ana", some 30, none,
              [], 0, 0, some 0, none, none, none⟩ else none
          disk := fun _ => none }
        { cache := fun u => if u = "u1" then some [] else none
          disk := fun _ => none }
        "u1" "oi" 0).saves = 0 ∧ (0 : Nat) ≠ 1 := by
  refine ⟨by decide, by decide⟩

/-- Claim C6 (amended): every `generate_response` turn appends exactly one
inbound user message and then exactly one outbound assistant reply to the
history, but the number of `save_user_state` calls is phase-dependent (0, 1
or 2), as counted by `savesSpec` — not always exactly one. -/
theorem C6_amended (ext : ExtCalls) (sm : StateMgr) (hm : HistMgr)
    (numero user_message : String) (now : Int) :
    effectiveHistory (generate_response ext sm hm numero user_message now).hist
        (_get_user_id numero) =
      effectiveHistory hm (_get_user_id numero) ++
        [⟨"user", user_message, now⟩,
         ⟨"assistant", (generate_response ext sm hm numero user_message now).resposta, now⟩] ∧
      (generate_response ext sm hm numero user_message now).saves =
        savesSpec ext sm hm numero user_message now := by
  constructor
  · unfold generate_response
    dsimp only
    rw [effectiveHistory_add_message, effectiveHistory_add_message,
      effectiveHistory_get_history, List.append_assoc]
    rfl
  · unfold generate_response savesSpec
    dsimp only
    by_cases hr : _should_restart_conversation (get_user_state sm (_get_user_id numero) now).1
        user_message (get_history hm (_get_user_id numero) none).1 = true
    · simp only [if_pos hr]
      unfold _route_by_phase
      rw [if_pos (show (_get_default_state now).fase = "inicial" from rfl)]
      rfl
    · simp only [if_neg hr]
      rw [Nat.zero_add]
      unfold _route_by_phase
      by_cases h1 : (get_user_state sm (_get_user_id numero) now).1.fase = "inicial"
      · simp only [if_pos h1]
        rfl
      · simp only [if_neg h1]
        by_cases h2 : (get_user_state sm (_get_user_id numero) now).1.fase = "aguardando_nome"
        · simp only [if_pos h2]
          unfold _handle_name_collection_phase
          dsimp only
          repeat' split
          all_goals rfl
        · simp only [if_neg h2]
          by_cases h3 : (get_user_state sm (_get_user_id numero) now).1.fase =
              "solicitar_teste_leitura"
          · simp only [if_pos h3]
            rfl
          · simp only [if_neg h3]
            by_cases h4 : (get_user_state sm (_get_user_id numero) now).1.fase =
                "aguardando_teste_leitura"
            · simp only [if_pos h4]
              rfl
            · simp only [if_neg h4]
              by_cases h5 : (get_user_state sm (_get_user_id numero) now).1.fase =
                  "exercicios_leitura"
              · simp only [if_pos h5]
                rfl
              · simp only [if_neg h5]
                by_cases h6 : (get_user_state sm (_get_user_id numero) now).1.fase =
                    "aguardando_leitura_audio"
                · simp only [if_pos h6]
                  rfl
                · simp only [if_neg h6]
                  by_cases h7 : (get_user_state sm (_get_user_id numero) now).1.fase =
                      "aguardando_decisao_pos_feedback"
                  · simp only [if_pos h7]
                    unfold _handle_post_feedback_decision
                    dsimp only
                    by_cases hd1 : (_decide_next_action ext.decision_content).action = "help"
                    · simp only [if_pos hd1]
                    · simp only [if_neg hd1]
                      by_cases hd2 :
                          (_decide_next_action ext.decision_content).action = "exercise"
                      · simp only [if_pos hd2]
                        rfl
                      · simp only [if_neg hd2]
                  · simp only [if_neg h7]
                    unfold _handle_personalized_phase
                    cases ext.personalized_content <;> rfl

/-- Witness for C6 (amended): the append behaviour instantiated at a concrete
turn — an empty cached history gains exactly the inbound message and the
reply. -/
theorem C6_witness :
    effectiveHistory (generate_response ⟨none, none, none, none, none, none⟩
        { cache := fun _ => none
          disk := fun _ => none }
        { cache := fun u => if u = "u1" then some [] else none
          disk := fun _ => none }
        "u1" "oi" 0).hist "u1" =
      effectiveHistory
        { cache := fun u => if u = "u1" then some [] else none
          disk := fun _ => none } "u1" ++
        [⟨"user", "oi", 0⟩,
         ⟨"assistant", (generate_response ⟨none, none, none, none, none, none⟩
            { cache := fun _ => none
              disk := fun _ => none }
            { cache := fun u => if u = "u1" then some [] else none
              disk := fun _ => none }
            "u1" "oi" 0).resposta, 0⟩] := by
  exact (C6_amended ⟨none, none, none, none, none, none⟩
    { cache := fun _ => none
      disk := fun _ => none }
    { cache := fun u => if u = "u1" then some [] else none
      disk := fun _ => none }
    "u1" "oi" 0).1
